import Mathlib

/-!
# jsTDstream: a shallow embedding of the range streaming handler and the session manager

The development follows the JavaScript sources:

* `src/utils/telegramClient.js`  (class `TelegramClientManager`)
* `src/server.js`                (class `TelegramFileServer`)
* `src/routes/files.js`          (class `FileRoutes`)

Conventions of the embedding.

* A JavaScript number is an integer or `NaN` (`Num`).  All sizes and offsets that
  occur are far below `2^53`, where the arithmetic of doubles on integers is exact.
* A JavaScript string is a `String`; the text operations work on its list of characters.
* A thrown `Error` is its message.  `async` functions are run to completion in
  program order; answers of the backend are arguments of the call that asks for them.
* The effects of a handler on the response are recorded, in order, as a list of events.
-/

namespace TDStream

/-! ## JavaScript values -/

/-- A JavaScript number restricted to what the program computes with: an integer or NaN. -/
inductive Num where
  | nan
  | fin (v : Int)
deriving DecidableEq, Repr

namespace Num

/-- The test `isNaN(x)`. -/
def isNaN : Num → Bool
  | nan => true
  | fin _ => false

/-- The comparison `a <= b`: false as soon as one side is NaN. -/
def le : Num → Num → Bool
  | fin a, fin b => decide (a ≤ b)
  | _, _ => false

/-- The comparison `a >= b`. -/
def ge : Num → Num → Bool
  | fin a, fin b => decide (b ≤ a)
  | _, _ => false

/-- The comparison `a < b`. -/
def lt : Num → Num → Bool
  | fin a, fin b => decide (a < b)
  | _, _ => false

/-- The comparison `a > b`. -/
def gt : Num → Num → Bool
  | fin a, fin b => decide (b < a)
  | _, _ => false

/-- The sum `a + b`. -/
def add : Num → Num → Num
  | fin a, fin b => fin (a + b)
  | _, _ => nan

/-- The difference `a - b`. -/
def sub : Num → Num → Num
  | fin a, fin b => fin (a - b)
  | _, _ => nan

/-- The call `Math.min(a, b)`: NaN as soon as one argument is NaN. -/
def min : Num → Num → Num
  | fin a, fin b => fin (if a ≤ b then a else b)
  | _, _ => nan

/-- The truthiness of a number: `0` and NaN are falsy. -/
def truthy : Num → Bool
  | nan => false
  | fin v => decide (v ≠ 0)

/-- The text of a number inside a template literal. -/
def toStr : Num → String
  | nan => "NaN"
  | fin v => if v < 0 then "-" ++ toString v.natAbs else toString v.toNat

end Num

/-- The truthiness of a value that is a string or null/undefined: only a non-empty string is truthy. -/
def truthyStr : Option String → Bool
  | none => false
  | some s => !s.toList.isEmpty

/-- The method `String.prototype.includes` on lists of characters. -/
def includesChars : List Char → List Char → Bool
  | [], pat => pat.isEmpty
  | c :: cs, pat => pat.isPrefixOf (c :: cs) || includesChars cs pat

/-- The method `String.prototype.includes`. -/
def includes (s pat : String) : Bool := includesChars s.toList pat.toList

/-- The method `String.prototype.startsWith`. -/
def startsWith (s pat : String) : Bool := pat.toList.isPrefixOf s.toList

/-- The call `s.replace(/pat/, "")` for a literal pattern: the first occurrence is removed. -/
def removeFirst (pat : List Char) : List Char → List Char
  | [] => []
  | c :: cs => if pat.isPrefixOf (c :: cs) then (c :: cs).drop pat.length else c :: removeFirst pat cs

/-- The call `s.split(sep)` for a separator of one character. -/
def splitChars (sep : Char) : List Char → List (List Char)
  | [] => [[]]
  | c :: cs =>
    if c = sep then [] :: splitChars sep cs
    else
      match splitChars sep cs with
      | [] => [[c]]
      | p :: ps => (c :: p) :: ps

/-- The characters that `parseInt` skips in front of the number (white space and line terminators). -/
def isStrWhiteSpace (c : Char) : Bool :=
  let n := c.toNat
  n == 9 || n == 10 || n == 11 || n == 12 || n == 13 || n == 32 || n == 160 || n == 5760 ||
  (8192 ≤ n && n ≤ 8202) || n == 8232 || n == 8233 || n == 8239 || n == 8287 || n == 12288 ||
  n == 65279

/-- A decimal digit. -/
def isDecDigit (c : Char) : Bool := 48 ≤ c.toNat && c.toNat ≤ 57

/-- The value of a run of decimal digits. -/
def decValue (ds : List Char) : Nat := ds.foldl (fun acc c => 10 * acc + (c.toNat - 48)) 0

/-- The call `parseInt(s, 10)` on the characters of `s`: leading white space is skipped, a sign
is read, then the longest run of decimal digits; no digit at all gives NaN. -/
def parseIntChars (s : List Char) : Num :=
  let s1 := s.dropWhile isStrWhiteSpace
  let signed : Bool × List Char :=
    match s1 with
    | c :: r => if c = '-' then (true, r) else if c = '+' then (false, r) else (false, s1)
    | [] => (false, s1)
  let ds := signed.2.takeWhile isDecDigit
  if ds.isEmpty then Num.nan
  else if signed.1 then Num.fin (-(decValue ds : Int)) else Num.fin (decValue ds)

/-- The call `parseInt(s, 10)`. -/
def parseInt (s : String) : Num := parseIntChars s.toList

/-- The value of a hexadecimal digit. -/
def hexDigit? (c : Char) : Option Nat :=
  let n := c.toNat
  if 48 ≤ n && n ≤ 57 then some (n - 48)
  else if 97 ≤ n && n ≤ 102 then some (n - 87)
  else if 65 ≤ n && n ≤ 70 then some (n - 55)
  else none

/-- The call `parseInt(s)` without a radix, on the characters of `s`: as `parseInt(s, 10)`,
except that digits after a prefix `0x` or `0X` are read in base 16. -/
def parseIntAutoChars (s : List Char) : Num :=
  let s1 := s.dropWhile isStrWhiteSpace
  let signed : Bool × List Char :=
    match s1 with
    | c :: r => if c = '-' then (true, r) else if c = '+' then (false, r) else (false, s1)
    | [] => (false, s1)
  let hex : Option (List Char) :=
    match signed.2 with
    | c :: x :: r => if c = '0' && (x = 'x' || x = 'X') then some r else none
    | _ => none
  match hex with
  | some r =>
    let ds := r.takeWhile (fun c => (hexDigit? c).isSome)
    let v : Nat := ds.foldl (fun acc c => 16 * acc + (hexDigit? c).getD 0) 0
    if ds.isEmpty then Num.nan else if signed.1 then Num.fin (-(v : Int)) else Num.fin v
  | none =>
    let ds := signed.2.takeWhile isDecDigit
    if ds.isEmpty then Num.nan
    else if signed.1 then Num.fin (-(decValue ds : Int)) else Num.fin (decValue ds)

/-- The call `parseInt(x)` without a radix on a value that may be null or undefined (whose
text holds no digit). -/
def parseIntOpt : Option String → Num
  | none => Num.nan
  | some s => parseIntAutoChars s.toList

/-- A byte. -/
abbrev Byte := Nat

/-- A Node `Buffer`. -/
abbrev Buffer := List Byte

/-- An index argument of `Buffer.prototype.slice`, brought into `0 .. len`: NaN counts as 0 and
a negative index counts from the end. -/
def clampIndex (len : Nat) : Num → Nat
  | Num.nan => 0
  | Num.fin i => if i < 0 then (len + i).toNat else Nat.min i.toNat len

/-- The method `Buffer.prototype.slice(s, e)`; `e` absent means the length. -/
def bufSlice (b : Buffer) (s : Num) (e : Option Num) : Buffer :=
  let i := clampIndex b.length s
  let j := match e with
    | none => b.length
    | some e => clampIndex b.length e
  (b.take j).drop i

/-! ## Responses -/

/-- A scalar inside a JSON body. -/
inductive JPrim where
  | str (s : String)
  | num (n : Num)
  | bool (b : Bool)
  | undefined
deriving DecidableEq, Repr

/-- A field value of a JSON body: a scalar or an object of scalars. -/
inductive JVal where
  | prim (p : JPrim)
  | obj (fields : List (String × JPrim))
deriving DecidableEq, Repr

/-- A JSON object. -/
abbrev Json := List (String × JVal)

/-- A response made with `res.status(code).json(body)` (`res.json(body)` has status 200). -/
structure JsonResponse where
  status : Nat
  body : Json
deriving DecidableEq, Repr

/-! ## `src/utils/telegramClient.js`: the session manager -/

/-- The field `authState` of the manager. -/
structure AuthState where
  isAuthenticated : Bool
  phoneNumber : Option String
  phoneCodeHash : Option String
  passwordNeeded : Bool
  twoFactorHint : Option String
deriving DecidableEq, Repr

/-- The `TelegramClient` object held by the manager: whether it is connected, and the text
that `client.session.save()` returns. -/
structure Client where
  connected : Bool
  session : String
deriving DecidableEq, Repr

/-- The keys of the persisted configuration that the manager reads and writes. -/
structure Config where
  apiId : Option String
  apiHash : Option String
  stringSession : Option String
deriving DecidableEq, Repr

/-- A call that the manager makes to the backend through the client. -/
inductive BackendCall where
  | connect
  | isUserAuthorized
  | sendCode (phoneNumber : String)
  | signIn (phoneNumber phoneCodeHash phoneCode : String)
  | checkPassword (password : String)
  | disconnect
deriving DecidableEq, Repr

/-- The class `TelegramClientManager`: its fields and the configuration store it owns.  The
field `calls` is not a field of the class: it records, latest first, the calls made to the
backend, so that a statement can say what a method asked of the backend. -/
structure TelegramClientManager where
  client : Option Client
  authState : AuthState
  config : Config
  calls : List BackendCall
deriving DecidableEq, Repr

/-- What the backend answers during `initClient`: `client.connect()` throws or succeeds (and
then `client.session.save()` returns the given text), and `client.isUserAuthorized()`. -/
structure InitAnswers where
  connect : Except String String
  isUserAuthorized : Except String Bool

/-- The fields `id`, `firstName`, `lastName`, `username` of a user. -/
structure User where
  id : String
  firstName : Option String
  lastName : Option String
  username : Option String
deriving DecidableEq, Repr

/-- The object that `auth.SignIn` returns, with the text `client.session.save()` returns after it. -/
structure SignInReply where
  className : String
  user : Option User
  session : String

/-- What `signIn` returns. -/
inductive SignInResult where
  | success (session : String) (user : User)
  | needsPassword
deriving DecidableEq, Repr

/-- What the backend answers during `sendCode`. -/
structure SendCodeAnswers where
  init : InitAnswers
  sendCode : Except String (String × Nat)

namespace TelegramClientManager

/-- The constructor (lines 5-15). -/
def new (config : Config) : TelegramClientManager :=
  { client := none
    authState :=
      { isAuthenticated := false
        phoneNumber := none
        phoneCodeHash := none
        passwordNeeded := false
        twoFactorHint := none }
    config := config
    calls := [] }

/-- The expression `this.client?.connected`. -/
def clientConnected (m : TelegramClientManager) : Bool :=
  match m.client with
  | some c => c.connected
  | none => false

/-- The method `initClient(forceNew)` (lines 17-74).  The result is the outcome (the client
itself stays in the state) and the state afterwards. -/
def initClient (a : InitAnswers) (m : TelegramClientManager) (forceNew : Bool) :
    Except String Unit × TelegramClientManager :=
  if m.clientConnected && !forceNew then (.ok (), m)
  else
    let apiId := parseIntOpt m.config.apiId
    let apiHash := m.config.apiHash
    let stringSession := m.config.stringSession
    if !apiId.truthy || !truthyStr apiHash then (.error "API credentials not configured", m)
    else
      let fresh : Client :=
        { connected := false, session := if truthyStr stringSession then stringSession.getD "" else "" }
      let client : Client :=
        match m.client with
        | some c => if forceNew then fresh else c
        | none => fresh
      let m1 : TelegramClientManager := { m with client := some client }
      let connected : Except String Unit × TelegramClientManager :=
        if !client.connected then
          let m2 : TelegramClientManager := { m1 with calls := .connect :: m1.calls }
          match a.connect with
          | .error e => (.error e, m2)
          | .ok newSession =>
            let m3 : TelegramClientManager :=
              { m2 with client := some { connected := true, session := newSession } }
            if some newSession ≠ stringSession then
              (.ok (), { m3 with config := { m3.config with stringSession := some newSession } })
            else (.ok (), m3)
        else (.ok (), m1)
      match connected with
      | (.error e, m4) => (.error e, m4)
      | (.ok _, m4) =>
        let m5 : TelegramClientManager := { m4 with calls := .isUserAuthorized :: m4.calls }
        match a.isUserAuthorized with
        | .error e => (.error e, m5)
        | .ok b => (.ok (), { m5 with authState := { m5.authState with isAuthenticated := b } })

/-- The method `sendCode(phoneNumber)` (lines 77-122). -/
def sendCode (a : SendCodeAnswers) (m : TelegramClientManager) (phoneNumber : String) :
    Except String (String × Nat) × TelegramClientManager :=
  let attempt : Except String (String × Nat) × TelegramClientManager :=
    match initClient a.init m true with
    | (.error e, m1) => (.error e, m1)
    | (.ok _, m0) =>
      let m1 : TelegramClientManager := { m0 with calls := .sendCode phoneNumber :: m0.calls }
      match a.sendCode with
      | .error e => (.error e, m1)
      | .ok result =>
        (.ok result,
          { m1 with authState :=
              { m1.authState with phoneNumber := some phoneNumber, phoneCodeHash := some result.1 } })
  match attempt with
  | (.ok r, m2) => (.ok r, m2)
  | (.error e, m2) =>
    if includes e "AUTH_RESTART" then
      match m2.client with
      | none => (.error "Cannot read properties of null (reading \x27disconnect\x27)", m2)
      | some c =>
        (.error "Please try sending code again",
          { m2 with client := some { c with connected := false }, calls := .disconnect :: m2.calls })
    else (.error e, m2)

/-- The method `signIn(code)` (lines 125-178).  `a` is what `auth.SignIn` answers when it is invoked. -/
def signIn (a : Except String SignInReply) (m : TelegramClientManager) (code : String) :
    Except String SignInResult × TelegramClientManager :=
  let attempt : Except String SignInResult × TelegramClientManager :=
    if !truthyStr m.authState.phoneNumber || !truthyStr m.authState.phoneCodeHash then
      (.error "Phone number or code hash missing. Please send code first.", m)
    else
      match m.client with
      | none => (.error "Cannot read properties of null (reading \x27invoke\x27)", m)
      | some c =>
        let m0 : TelegramClientManager :=
          { m with calls :=
              .signIn (m.authState.phoneNumber.getD "") (m.authState.phoneCodeHash.getD "") code ::
                m.calls }
        match a with
        | .error e => (.error e, m0)
        | .ok signInResult =>
          if signInResult.className = "auth.AuthorizationSignUpRequired" then
            (.error "This phone number is not registered with Telegram", m0)
          else
            let session := signInResult.session
            let m1 : TelegramClientManager :=
              { m0 with
                client := some { c with session := session }
                authState := { m0.authState with isAuthenticated := true }
                config := { m0.config with stringSession := some session } }
            match signInResult.user with
            | none => (.error "Cannot read properties of undefined (reading \x27id\x27)", m1)
            | some user => (.ok (.success session user), m1)
  match attempt with
  | (.ok r, m2) => (.ok r, m2)
  | (.error e, m2) =>
    if includes e "SESSION_PASSWORD_NEEDED" then
      (.ok .needsPassword, { m2 with authState := { m2.authState with passwordNeeded := true } })
    else if includes e "PHONE_CODE_INVALID" then (.error "Invalid verification code", m2)
    else (.error e, m2)

/-- The method `checkPassword(password)` (lines 180-191).  `a` is what the client's
`checkPassword` answers: it throws, or it succeeds and `client.session.save()` then returns
the given text. -/
def checkPassword (a : Except String String) (m : TelegramClientManager) (password : String) :
    Except String String × TelegramClientManager :=
  match m.client with
  | none => (.error "Cannot read properties of null (reading \x27checkPassword\x27)", m)
  | some c =>
    let m0 : TelegramClientManager := { m with calls := .checkPassword password :: m.calls }
    match a with
    | .error e => (.error e, m0)
    | .ok session =>
      (.ok session,
        { m0 with
          client := some { c with session := session }
          authState := { m0.authState with isAuthenticated := true }
          config := { m0.config with stringSession := some session } })

end TelegramClientManager

/-! ## `src/server.js`: the authentication middleware in front of the routes -/

/-- What a middleware does with a request: it answers, or it calls `next()`. -/
inductive MiddlewareOutcome where
  | next
  | respond (r : JsonResponse)
deriving DecidableEq, Repr

/-- The authentication middleware installed by `setupMiddleware` (lines 25-43), on the
path of the request. -/
def authMiddleware (a : InitAnswers) (m : TelegramClientManager) (path : String) :
    MiddlewareOutcome × TelegramClientManager :=
  if startsWith path "/auth" then (.next, m)
  else
    match m.initClient a false with
    | (.ok _, m1) =>
      if !m1.authState.isAuthenticated then
        (.respond
          { status := 401
            body := [("error", .prim (.str "Not authenticated")), ("needsAuth", .prim (.bool true))] },
          m1)
      else (.next, m1)
    | (.error e, m1) => (.respond { status := 500, body := [("error", .prim (.str e))] }, m1)

/-- The handler of `GET /status` registered by `setupRoutes` (lines 67-79). -/
def statusRoute (m : TelegramClientManager) : JsonResponse :=
  { status := 200
    body :=
      [("status", .prim (.str "running")), ("version", .prim (.str "1.0.0")),
       ("authenticated", .prim (.bool m.authState.isAuthenticated)),
       ("needsPassword", .prim (.bool m.authState.passwordNeeded))] }

/-- A request `GET /status` through the application: the middleware of `setupMiddleware`
runs first, and the route of `setupRoutes` only when the middleware calls `next()`. -/
def getStatus (a : InitAnswers) (m : TelegramClientManager) : JsonResponse × TelegramClientManager :=
  match authMiddleware a m "/status" with
  | (.respond r, m1) => (r, m1)
  | (.next, m1) => (statusRoute m1, m1)

/-! ## `src/routes/files.js`: the stream handler -/

/-- The fields of `media.document` that the handler reads. -/
structure Document where
  size : Nat
  mimeType : Option String
deriving DecidableEq, Repr

/-- The field `media` of a message. -/
structure Media where
  className : String
  document : Option Document
deriving DecidableEq, Repr

/-- A message returned by `client.getMessages`. -/
structure Message where
  media : Option Media
deriving DecidableEq, Repr

/-- The parts of the request that `handleStreamFile` reads: `req.params.id`,
`req.query.groupId` and `req.headers.range`. -/
structure Request where
  id : String
  groupId : Option String
  range : Option String
deriving DecidableEq, Repr

/-- What the handler does to the response and to the backend, in program order. -/
inductive Event where
  | json (r : JsonResponse)
  | writeHead (status : Nat) (headers : List (String × JPrim))
  | fetch (offset : Int)
  | write (bytes : Buffer)
  | finish
deriving DecidableEq, Repr

/-- The surroundings of one run of `handleStreamFile`: the answers to `initClient`, the
answer of `client.getMessages(entity, ids: [parseInt(id)])` (it throws, or returns an array whose
entries may be undefined), the answer of `upload.GetFile` for the window at an offset
(`none` when the call throws), and the value of `res.destroyed` read at the top of the
iteration of the `while` loop with the given index. -/
structure StreamEnv where
  init : InitAnswers
  getMessages : String → String → Except String (List (Option Message))
  getFile : Int → Option Buffer
  destroyed : Nat → Bool

/-- The constant `CHUNK_SIZE` (line 66). -/
def CHUNK_SIZE : Nat := 256 * 1024

/-- The constant `MAX_PARALLEL_CHUNKS` (line 67). -/
def MAX_PARALLEL_CHUNKS : Nat := 10

/-- What `fetchChunk` resolves to when it does not fail. -/
structure Chunk where
  offset : Int
  bytes : Buffer
deriving DecidableEq, Repr

/-- The closure `fetchChunk` (lines 154-166): `null` when the backend call throws. -/
def fetchChunk (env : StreamEnv) (chunkOffset : Int) : Option Chunk :=
  match env.getFile chunkOffset with
  | some bytes => some { offset := chunkOffset, bytes := bytes }
  | none => none

/-- The inner `for` loop (lines 173-176), with `n` iterations left: the offsets for which
`fetchChunk` is called, and the cursor afterwards. -/
def launchBatch (requestEnd : Num) : Nat → Int → List Int × Int
  | 0, offset => ([], offset)
  | n + 1, offset =>
    if Num.le (Num.fin offset) requestEnd then
      let rest := launchBatch requestEnd n (offset + CHUNK_SIZE)
      (offset :: rest.1, rest.2)
    else ([], offset)

/-- The trimming of one chunk (lines 183-193): the bytes handed to `res.write`. -/
def trimChunk (range : Bool) (start : Int) (end_ : Num) (chunk : Chunk) : Buffer :=
  if range then
    let bytes1 :=
      if chunk.offset < start then bufSlice chunk.bytes (Num.fin (start - chunk.offset)) none
      else chunk.bytes
    if Num.gt (Num.fin (chunk.offset + bytes1.length)) (Num.add end_ (Num.fin 1)) then
      bufSlice bytes1 (Num.fin 0) (some (Num.add (Num.sub end_ (Num.fin chunk.offset)) (Num.fin 1)))
    else bytes1
  else chunk.bytes

/-- The writes of one batch (lines 179-198): failed chunks are skipped, the others are trimmed
and written in the order of the batch. -/
def writeBatch (range : Bool) (start : Int) (end_ : Num) (chunks : List (Option Chunk)) : List Event :=
  chunks.filterMap (fun chunk => chunk.map (fun c => Event.write (trimChunk range start end_ c)))

/-- The `while` loop (lines 168-199).  `fuel` bounds the number of iterations, `k` is the
index of the iteration, `offset` the cursor.  The result is `none` when the fuel runs out
before the loop ends.  The wait for `drain` after a write that returns false (lines 195-197)
delays the loop and changes nothing in what is fetched and written. -/
def streamLoop (env : StreamEnv) (range : Bool) (start : Int) (requestEnd : Num) :
    Nat → Nat → Int → Option (List Event)
  | 0, _, _ => none
  | fuel + 1, k, offset =>
    if Num.le (Num.fin offset) requestEnd then
      if env.destroyed k then some []
      else
        let batch := launchBatch requestEnd MAX_PARALLEL_CHUNKS offset
        let chunks := batch.1.map (fetchChunk env)
        match streamLoop env range start requestEnd fuel (k + 1) batch.2 with
        | none => none
        | some rest =>
          some (batch.1.map Event.fetch ++ writeBatch range start requestEnd chunks ++ rest)
    else some []

/-- The array `parts` (line 116): the header without its first `bytes=`, split at `-`. -/
def rangeParts (range : String) : List (List Char) :=
  splitChars '-' (removeFirst "bytes=".toList range.toList)

/-- The value `parseInt(parts[0], 10)` (line 117). -/
def rangeStart (range : String) : Num := parseIntChars ((rangeParts range).headD [])

/-- The value `parts[1] ? parseInt(parts[1], 10) : size - 1` (line 118). -/
def rangeEnd (range : String) (size : Int) : Num :=
  match (rangeParts range).get? 1 with
  | some p => if !p.isEmpty then parseIntChars p else Num.fin (size - 1)
  | none => Num.fin (size - 1)

/-- The value `document.mimeType || \x27application/octet-stream\x27` (line 109). -/
def mimeTypeOf (document : Document) : String :=
  if truthyStr document.mimeType then document.mimeType.getD "" else "application/octet-stream"

/-- What lines 108-152 fix before the loop starts: the arguments of `res.writeHead`, whether
a range was asked for (the variable `range` as a condition), `start`, `requestEnd`, and the
first value of the cursor `offset`. -/
structure StreamPlan where
  status : Nat
  headers : List (String × JPrim)
  range : Bool
  start : Int
  requestEnd : Num
  offset : Int
deriving DecidableEq, Repr

/-- The body of the 416 answer (lines 121-124). -/
def rangeNotSatisfiable (start : Num) (size : Int) : JsonResponse :=
  { status := 416
    body := [("error", .prim (.str "Requested range not satisfiable")),
             ("details", .obj [("start", .num start), ("size", .num (Num.fin size))])] }

/-- The head of the response (lines 108-152): the 416 answer, or the header that is written
and the parameters of the loop. -/
def planStream (document : Document) (range : Option String) : Except JsonResponse StreamPlan :=
  let size : Int := document.size
  let mimeType := mimeTypeOf document
  if truthyStr range then
    let start := rangeStart (range.getD "")
    let end0 := rangeEnd (range.getD "") size
    match start with
    | Num.nan => .error (rangeNotSatisfiable start size)
    | Num.fin s =>
      if size ≤ s then .error (rangeNotSatisfiable start size)
      else
        let end_ := Num.min end0 (Num.fin (size - 1))
        .ok
          { status := 206
            headers :=
              [("Content-Range",
                  .str ("bytes " ++ start.toStr ++ "-" ++ end_.toStr ++ "/" ++ (Num.fin size).toStr)),
               ("Accept-Ranges", .str "bytes"),
               ("Content-Length", .num (Num.add (Num.sub end_ start) (Num.fin 1))),
               ("Content-Type", .str mimeType)]
            range := true
            start := s
            requestEnd := end_
            offset := Int.fdiv s CHUNK_SIZE * CHUNK_SIZE }
  else
    .ok
      { status := 200
        headers :=
          [("Content-Length", .num (Num.fin size)),
           ("Content-Type", .str mimeType),
           ("Accept-Ranges", .str "bytes")]
        range := false
        start := 0
        requestEnd := Num.fin (size - 1)
        offset := Int.fdiv 0 CHUNK_SIZE * CHUNK_SIZE }

/-- The second half of `handleStreamFile` (lines 108-201): from the document to the end of
the response. -/
def streamDocument (env : StreamEnv) (document : Document) (range : Option String) (fuel : Nat) :
    Option (List Event) :=
  match planStream document range with
  | .error r => some [.json r]
  | .ok p =>
    match streamLoop env p.range p.start p.requestEnd fuel 0 p.offset with
    | none => none
    | some evs => some (.writeHead p.status p.headers :: evs ++ [.finish])

/-- The lookup of the message (lines 69-83): the hinted container first, then the personal
store `me`; an error when a call throws. -/
def findMessages (env : StreamEnv) (req : Request) : Except String (List (Option Message)) :=
  let first : Except String (Option (List (Option Message))) :=
    if truthyStr req.groupId then
      match env.getMessages (req.groupId.getD "") req.id with
      | .error e => .error e
      | .ok ms => .ok (some ms)
    else .ok none
  match first with
  | .error e => .error e
  | .ok (some (x :: xs)) => .ok (x :: xs)
  | .ok _ => env.getMessages "me" req.id

/-- The first half of `handleStreamFile` (lines 60-106, with the `catch` of lines 202-212 for
an error of `initClient`): the document, or the response that ends the request. -/
def lookupDocument (env : StreamEnv) (m : TelegramClientManager) (req : Request) :
    Except JsonResponse Document × TelegramClientManager :=
  match m.initClient env.init false with
  | (.error e, m1) =>
    (.error
      { status := 500
        body := [("error", .prim (.str "Error streaming file")), ("details", .prim (.str e))] },
     m1)
  | (.ok _, m1) =>
    let fileId : JPrim := .str req.id
    let group : JPrim :=
      match req.groupId with
      | some g => .str g
      | none => .undefined
    match findMessages env req with
    | .error _ =>
      (.error
        { status := 404
          body := [("error", .prim (.str "File not found")),
                   ("details", .obj [("fileId", fileId), ("groupId", group)])] },
       m1)
    | .ok messages =>
      match (messages.head?.join).bind (fun msg => msg.media) with
      | none =>
        (.error
          { status := 404
            body := [("error", .prim (.str "No media found")),
                     ("details", .obj [("fileId", fileId), ("groupId", group)])] },
         m1)
      | some media =>
        match media.document with
        | none =>
          (.error
            { status := 404
              body := [("error", .prim (.str "No document found")),
                       ("details", .obj [("fileId", fileId), ("mediaType", .str media.className)])] },
           m1)
        | some document => (.ok document, m1)

/-- The handler `handleStreamFile` (lines 59-213): the events on the response (`none` when
the fuel of the loop runs out) and the state of the session manager afterwards. -/
def handleStreamFile (env : StreamEnv) (m : TelegramClientManager) (req : Request) (fuel : Nat) :
    Option (List Event) × TelegramClientManager :=
  match lookupDocument env m req with
  | (.error r, m1) => (some [.json r], m1)
  | (.ok document, m1) => (streamDocument env document req.range fuel, m1)

/-- The offsets of the chunk fetches in a run, in order. -/
def fetchesOf : List Event → List Int
  | [] => []
  | .fetch o :: evs => o :: fetchesOf evs
  | _ :: evs => fetchesOf evs

/-- The buffers handed to `res.write` in a run, in order. -/
def writesOf : List Event → List Buffer
  | [] => []
  | .write b :: evs => b :: writesOf evs
  | _ :: evs => writesOf evs

/-- The bytes of the response body: the concatenation of the writes. -/
def bodyOf (evs : List Event) : Buffer := (writesOf evs).flatten

/-- The header object of the first `writeHead` of a run. -/
def headOf : List Event → Option (Nat × List (String × JPrim))
  | [] => none
  | .writeHead status headers :: _ => some (status, headers)
  | _ :: evs => headOf evs

/-- The bytes `[a, b]` of an object, both ends included. -/
def sourceBytes (obj : Buffer) (a b : Nat) : Buffer := (obj.drop a).take (b + 1 - a)

/-- The backend of an object `obj` that answers every window: the bytes of the object from
the offset on, at most `CHUNK_SIZE` of them, cut at the end of the object. -/
def honestGetFile (obj : Buffer) (offset : Int) : Option Buffer :=
  some ((obj.drop offset.toNat).take CHUNK_SIZE)


/-- A configuration with API credentials and no stored session. -/
def demoConfig : Config :=
  { apiId := some "12345", apiHash := some "0123456789abcdef", stringSession := none }

/-- A backend that accepts the connection and reports the user as not authorized. -/
def notAuthorized : InitAnswers := { connect := .ok "1AQAA", isUserAuthorized := .ok false }

/-- A configuration without API credentials. -/
def emptyConfig : Config := { apiId := none, apiHash := none, stringSession := none }

/-- A backend that accepts the connection and reports the user as authorized. -/
def authorized : InitAnswers := { connect := .ok "1AQAA", isUserAuthorized := .ok true }

/-- The text of the error thrown by `signIn` when no code was requested. -/
def sequenceError : String := "Phone number or code hash missing. Please send code first."

/-- The body of the 401 answer of the authentication middleware. -/
def needsAuthBody : Json :=
  [("error", .prim (.str "Not authenticated")), ("needsAuth", .prim (.bool true))]

/-- A manager after a successful `sendCode`: a connected client, a pending phone number and
code hash, not authenticated. -/
def pendingManager : TelegramClientManager :=
  { client := some { connected := true, session := "1AQAA" }
    authState :=
      { isAuthenticated := false
        phoneNumber := some "15550100"
        phoneCodeHash := some "abcdef"
        passwordNeeded := false
        twoFactorHint := none }
    config := { demoConfig with stringSession := some "1AQAA" }
    calls := [] }

/-- The text of a header `Range: bytes=<start>-<end>`; the end may be omitted. -/
def rangeHeader (start : Nat) (end_ : Option Nat) : String :=
  "bytes=" ++ toString start ++ "-" ++
    (match end_ with
     | some e => toString e
     | none => "")

/-- The number of iterations of the `while` loop that is always enough for an object of the
given size: one for each window, and the last test. -/
def enoughFuel (size : Nat) : Nat := size / CHUNK_SIZE + 2

/-- The offsets for which the `while` loop calls `fetchChunk`, in order: the loop of
`streamLoop` with the writes left out. -/
def launched (destroyed : Nat → Bool) (requestEnd : Num) : Nat → Nat → Int → Option (List Int)
  | 0, _, _ => none
  | fuel + 1, k, offset =>
    if Num.le (Num.fin offset) requestEnd then
      if destroyed k then some []
      else
        let batch := launchBatch requestEnd MAX_PARALLEL_CHUNKS offset
        match launched destroyed requestEnd fuel (k + 1) batch.2 with
        | none => none
        | some rest => some (batch.1 ++ rest)
    else some []

/-- What the window at an offset adds to the body: nothing when its fetch fails, its
trimmed bytes otherwise. -/
def contribution (env : StreamEnv) (range : Bool) (start : Int) (end_ : Num) (offset : Int) :
    Option Buffer :=
  (fetchChunk env offset).map (trimChunk range start end_)

/-- The number of windows from the cursor `o` up to the end `e` of the request. -/
def windowCount (e o : Int) : Nat := if o ≤ e then ((e - o) / CHUNK_SIZE).toNat + 1 else 0

/-- The offsets of `n` successive windows from `o` on. -/
def windowsFrom (o : Int) (n : Nat) : List Int :=
  (List.range n).map (fun (i : Nat) => o + (i : Int) * (CHUNK_SIZE : Int))

/-- The surroundings of a run in which the fetches of the windows selected by `failing`
throw; everything else is as in `env`. -/
def withFailures (failing : Int → Bool) (env : StreamEnv) : StreamEnv :=
  { env with getFile := fun o => if failing o then none else env.getFile o }

/-- The number of windows still to launch from the cursor `o`: none when the end is NaN. -/
def remaining : Num → Int → Nat
  | Num.nan, _ => 0
  | Num.fin e, o => windowCount e o

/-- A backend whose `getMessages` finds, in every container, one message carrying the
given document; the connection is accepted and the user is authorized, the object is served
by `honestGetFile`, and the consumer never goes away. -/
def demoEnv (document : Document) (obj : Buffer) : StreamEnv :=
  { init := authorized
    getMessages := fun _ _ => .ok [some { media := some { className := "MessageMediaDocument", document := some document } }]
    getFile := honestGetFile obj
    destroyed := fun _ => false }

/-- A request for the stream of message 7 with the given `Range` header. -/
def demoRequest (range : Option String) : Request := { id := "7", groupId := none, range := range }

/-- A backend for an object of 600000 bytes (three windows) that answers the window at an
offset with one byte, the index of the window; the consumer never goes away. -/
def markedEnv : StreamEnv :=
  { init := authorized
    getMessages := fun _ _ =>
      .ok [some { media := some { className := "MessageMediaDocument",
                                  document := some { size := 600000, mimeType := none } } }]
    getFile := fun o => some [o.toNat / CHUNK_SIZE]
    destroyed := fun _ => false }

/-! ## `src/routes/authentication.js`: the password route -/

/-- The handler `handleVerifyPassword` (lines 126-137), on `req.body.password`; `a` is what
the client's `checkPassword` answers when it is called.  The route is under `/auth`, so the
authentication middleware lets the request through unchecked. -/
def handleVerifyPassword (a : Except String String) (m : TelegramClientManager)
    (password : Option String) : JsonResponse × TelegramClientManager :=
  if !truthyStr password then
    ({ status := 400, body := [("error", .prim (.str "Password required"))] }, m)
  else
    match m.checkPassword a (password.getD "") with
    | (.ok session, m1) =>
      ({ status := 200
         body := [("success", .prim (.bool true)), ("session", .prim (.str session))] }, m1)
    | (.error e, m1) => ({ status := 500, body := [("error", .prim (.str e))] }, m1)

/-- The text of the error thrown by `signIn` for a number that is not registered. -/
def unregisteredError : String := "This phone number is not registered with Telegram"

/-- The text of the error thrown by `signIn` for a rejected code. -/
def invalidCodeError : String := "Invalid verification code"

/-! ## The states of the session -/

/-- The states of the manager that a sequence of calls of `initClient`, `sendCode`, `signIn`
and `checkPassword`, with any arguments and any answers of the backend, produces from the
manager built by the constructor. -/
inductive Reachable (config : Config) : TelegramClientManager → Prop where
  | start : Reachable config (TelegramClientManager.new config)
  | initClient (a : InitAnswers) (forceNew : Bool) {m : TelegramClientManager} :
      Reachable config m → Reachable config (m.initClient a forceNew).2
  | sendCode (a : SendCodeAnswers) (phoneNumber : String) {m : TelegramClientManager} :
      Reachable config m → Reachable config (m.sendCode a phoneNumber).2
  | signIn (a : Except String SignInReply) (code : String) {m : TelegramClientManager} :
      Reachable config m → Reachable config (m.signIn a code).2
  | checkPassword (a : Except String String) (password : String) {m : TelegramClientManager} :
      Reachable config m → Reachable config (m.checkPassword a password).2

/-- Whether a call of `auth.SignIn` reached the backend. -/
def hasSignInCall (m : TelegramClientManager) : Prop :=
  ∃ p h c, BackendCall.signIn p h c ∈ m.calls

/-- Whether a call of `auth.SendCode` reached the backend. -/
def hasSendCodeCall (m : TelegramClientManager) : Prop :=
  ∃ p, BackendCall.sendCode p ∈ m.calls

/-- The answers of a backend that accepts the connection, reports the user as not authorized
and sends a code. -/
def codeSent : SendCodeAnswers :=
  { init := notAuthorized, sendCode := .ok ("abcdef", 60) }

/-- The session after a complete login with a second factor: a code is sent, `signIn` is
answered with SESSION_PASSWORD_NEEDED, `checkPassword` is accepted. -/
def twoFactorLogin : TelegramClientManager :=
  (((((TelegramClientManager.new demoConfig).sendCode codeSent "15550100").2).signIn
    (.error "401: SESSION_PASSWORD_NEEDED (caused by auth.SignIn)") "12345").2.checkPassword
    (.ok "1BQAA") "secret").2

/-! ## `src/routes/files.js`: the listing -/

/-- An entry of `document.attributes`, with the fields that the listing reads. -/
structure DocumentAttribute where
  className : String
  fileName : Option String
  duration : Option Num
  w : Option Num
  h : Option Num
deriving DecidableEq, Repr

/-- The fields of `media.document` that the listing reads; each may be absent. -/
structure ListedDocument where
  attributes : Option (List DocumentAttribute)
  size : Option Num
  mimeType : Option String
deriving DecidableEq, Repr

/-- The field `media` of a listed message. -/
structure ListedMedia where
  document : Option ListedDocument
deriving DecidableEq, Repr

/-- A message returned by `client.getMessages` for a container. -/
structure ListedMessage where
  id : Int
  media : Option ListedMedia
deriving DecidableEq, Repr

/-- An entry of the array `files` of the answer. -/
structure FileEntry where
  id : Int
  name : String
  size : Num
  mime : Option String
  duration : Num
  width : Num
  height : Num
deriving DecidableEq, Repr

/-- The expression `x || 0` on a number that may be absent. -/
def orZero : Option Num → Num
  | some n => if n.truthy then n else Num.fin 0
  | none => Num.fin 0

/-- The expression `msg.media?.document`. -/
def documentOf (msg : ListedMessage) : Option ListedDocument :=
  msg.media.bind (fun media => media.document)

/-- The expression `msg.media?.document?.attributes?.find(p)`. -/
def findAttribute (msg : ListedMessage) (p : DocumentAttribute → Bool) : Option DocumentAttribute :=
  ((documentOf msg).bind (fun document => document.attributes)).bind (fun as => as.find? p)

/-- The test `attr.className === \x27DocumentAttributeVideo\x27`. -/
def isVideoAttribute (attr : DocumentAttribute) : Bool := attr.className == "DocumentAttributeVideo"

/-- The object built for one message by the `map` of lines 34-50. -/
def fileEntry (msg : ListedMessage) : FileEntry :=
  let found := (findAttribute msg (fun attr => truthyStr attr.fileName)).bind (fun attr => attr.fileName)
  { id := msg.id
    name := if truthyStr found then found.getD "" else "File_" ++ (Num.fin msg.id).toStr
    size := orZero ((documentOf msg).bind (fun document => document.size))
    mime := (documentOf msg).bind (fun document => document.mimeType)
    duration := orZero ((findAttribute msg isVideoAttribute).bind (fun attr => attr.duration))
    width := orZero ((findAttribute msg isVideoAttribute).bind (fun attr => attr.w))
    height := orZero ((findAttribute msg isVideoAttribute).bind (fun attr => attr.h)) }

/-- The surroundings of one run of `handleListGroupFiles`: the answers to `initClient` and
the answer of `client.getMessages(groupId, ...)` (it throws, or returns the messages). -/
structure ListEnv where
  init : InitAnswers
  getMessages : String → Except String (List ListedMessage)

/-- The answer of `handleListGroupFiles`: `res.json` with `success: true` and the array
`files`, or `res.status(500).json` with the message of the error. -/
inductive ListResponse where
  | files (entries : List FileEntry)
  | error (status : Nat) (message : String)
deriving DecidableEq, Repr

/-- The handler `handleListGroupFiles` (lines 19-57), on `req.params.groupId`. -/
def handleListGroupFiles (env : ListEnv) (m : TelegramClientManager) (groupId : String) :
    ListResponse × TelegramClientManager :=
  match m.initClient env.init false with
  | (.error e, m1) => (.error 500 e, m1)
  | (.ok _, m1) =>
    match env.getMessages groupId with
    | .error e => (.error 500 e, m1)
    | .ok messages =>
      (.files ((messages.filter (fun msg => (documentOf msg).isSome)).map fileEntry), m1)

/-- A message carries a document: it has a `media` with a `document`. -/
def carriesDocument (msg : ListedMessage) : Prop :=
  ∃ media document, msg.media = some media ∧ media.document = some document

/-- The attributes of the document of a message; none when something is absent on the way. -/
def attributesOf (msg : ListedMessage) : List DocumentAttribute :=
  match msg.media with
  | none => []
  | some media =>
    match media.document with
    | none => []
    | some document => document.attributes.getD []

/-- The file name of a message: the first file name that is not empty, among those that the
attributes of its document give. -/
def fileNameOf (msg : ListedMessage) : Option String :=
  ((attributesOf msg).filterMap (fun attr => attr.fileName)).find? (fun s => truthyStr (some s))

/-- The first video attribute of the document of a message. -/
def videoOf (msg : ListedMessage) : Option DocumentAttribute :=
  (attributesOf msg).find? isVideoAttribute

/-- The size of the document of a message, when there is one. -/
def sizeOf? (msg : ListedMessage) : Option Num :=
  match msg.media with
  | none => none
  | some media =>
    match media.document with
    | none => none
    | some document => document.size

/-- A number field of the listing follows its source: 0 when the source is absent, the
source itself when it is a number other than 0. -/
def followsOrZero (source : Option Num) (value : Num) : Prop :=
  (source = none → value = Num.fin 0) ∧ (∀ n, source = some n → n.truthy = true → value = n)

/-- What the listing promises for the entry of one message. -/
def EntryFor (msg : ListedMessage) (e : FileEntry) : Prop :=
  e.id = msg.id ∧
  (∀ s, fileNameOf msg = some s → e.name = s) ∧
  (fileNameOf msg = none → e.name = "File_" ++ (Num.fin msg.id).toStr) ∧
  followsOrZero (sizeOf? msg) e.size ∧
  followsOrZero ((videoOf msg).bind (fun attr => attr.duration)) e.duration ∧
  followsOrZero ((videoOf msg).bind (fun attr => attr.w)) e.width ∧
  followsOrZero ((videoOf msg).bind (fun attr => attr.h)) e.height

/-- Whether a message carries a document can be decided. -/
instance carriesDocumentDecidable (msg : ListedMessage) : Decidable (carriesDocument msg) :=
  match h : msg.media with
  | none => isFalse (fun ⟨_, _, h1, _⟩ => by rw [h] at h1; cases h1)
  | some media =>
    match h2 : media.document with
    | none => isFalse (fun ⟨_, _, h1, h3⟩ => by
        rw [h] at h1; cases h1; rw [h2] at h3; cases h3)
    | some document => isTrue ⟨media, document, h, h2⟩

/-- A video document with a file name. -/
def demoVideo : ListedDocument :=
  { attributes := some
      [ { className := "DocumentAttributeVideo", fileName := none, duration := some (Num.fin 42),
          w := some (Num.fin 640), h := some (Num.fin 360) },
        { className := "DocumentAttributeFilename", fileName := some "clip.mp4",
          duration := none, w := none, h := none } ]
    size := some (Num.fin 1000000)
    mimeType := some "video/mp4" }

/-- A container with three messages: a video with a file name, a message without media, and
a document without attributes, size and type. -/
def demoMessages : List ListedMessage :=
  [ { id := 11, media := some { document := some demoVideo } },
    { id := 12, media := none },
    { id := 13
      media := some { document := some { attributes := none, size := none, mimeType := none } } } ]

/-- The batches of the `while` loop, in order: for each iteration that launches fetches, the
offsets given to `fetchChunk` by its `for` loop.  It is `streamLoop` with the events left
out. -/
def launchedBatches (destroyed : Nat → Bool) (requestEnd : Num) :
    Nat → Nat → Int → Option (List (List Int))
  | 0, _, _ => none
  | fuel + 1, k, offset =>
    if Num.le (Num.fin offset) requestEnd then
      if destroyed k then some []
      else
        let batch := launchBatch requestEnd MAX_PARALLEL_CHUNKS offset
        match launchedBatches destroyed requestEnd fuel (k + 1) batch.2 with
        | none => none
        | some rest => some (batch.1 :: rest)
    else some []

/-- The events of one batch: its fetches are launched, then the chunks that arrived are
written in the order of the batch. -/
def batchEvents (env : StreamEnv) (range : Bool) (start : Int) (requestEnd : Num)
    (batch : List Int) : List Event :=
  batch.map Event.fetch ++ writeBatch range start requestEnd (batch.map (fetchChunk env))

/-- A backend for an object of 3,000,000 bytes (twelve windows) whose every fetch fails;
the consumer never goes away. -/
def failingEnv : StreamEnv :=
  { init := authorized
    getMessages := fun _ _ =>
      .ok [some { media := some { className := "MessageMediaDocument",
                                  document := some { size := 3000000, mimeType := none } } }]
    getFile := fun _ => none
    destroyed := fun _ => false }

/-! ## The loop as a machine -/

/-- The state of the `while` loop between two iterations: the cursor `offset`, the index of
the next iteration, whether the loop is still running, whether it ended at
`if (res.destroyed) break`, the offsets of the fetches launched so far and the buffers written
so far. -/
structure LoopState where
  cursor : Int
  iteration : Nat
  running : Bool
  disconnected : Bool
  fetched : List Int
  written : List Buffer
deriving DecidableEq, Repr

/-- The state in which the loop is entered at iteration `k` with the cursor at `offset`. -/
def loopEnter (k : Nat) (offset : Int) : LoopState :=
  { cursor := offset, iteration := k, running := true, disconnected := false
    fetched := [], written := [] }

/-- One iteration of the `while` loop (lines 168-199): the test of the cursor, the test of
`res.destroyed`, then a batch of fetches and its writes.  A loop that has ended stays as
it is. -/
def loopStep (env : StreamEnv) (range : Bool) (start : Int) (requestEnd : Num) (s : LoopState) :
    LoopState :=
  if !s.running then s
  else if Num.le (Num.fin s.cursor) requestEnd then
    if env.destroyed s.iteration then { s with running := false, disconnected := true }
    else
      let batch := launchBatch requestEnd MAX_PARALLEL_CHUNKS s.cursor
      { s with
        cursor := batch.2
        iteration := s.iteration + 1
        fetched := s.fetched ++ batch.1
        written := s.written ++ batch.1.filterMap (contribution env range start requestEnd) }
  else { s with running := false }

/-- The state after `n` iterations. -/
def loopRun (env : StreamEnv) (range : Bool) (start : Int) (requestEnd : Num) (n : Nat)
    (s : LoopState) : LoopState :=
  Nat.iterate (loopStep env range start requestEnd) n s

/-- A backend like `markedEnv` whose consumer is found gone at the second iteration. -/
def goneAtSecond : StreamEnv := { markedEnv with destroyed := fun k => decide (1 ≤ k) }

/-- The state of the machine on `goneAtSecond`, for a request that ends at byte 2999999
(twelve windows), after the first iteration: ten fetches are launched. -/
def afterFirstBatch : LoopState :=
  loopStep goneAtSecond false 0 (Num.fin 2999999) (loopEnter 0 0)

/-! ## `initClient` between its `await`s

A call of the `async` method `initClient` runs without interruption up to an `await`, and
other calls may run before it goes on.  The method is cut here at its two `await`s. -/

/-- The `await` at which a call of `initClient` is suspended: the one of
`this.client.connect()` (line 54; the call remembers its local `stringSession`), or the one
of `this.client.isUserAuthorized()` (line 66). -/
inductive InitPending where
  | connect (stringSession : Option String)
  | isUserAuthorized
deriving DecidableEq, Repr

/-- Where a call of `initClient` stands: it has returned or thrown, or it is suspended. -/
inductive InitStage where
  | done (r : Except String Unit)
  | pending (p : InitPending)

namespace TelegramClientManager

/-- The part of `initClient(forceNew)` from its entry to its first `await` (lines 18-54, or
lines 18-66 when the client is connected already). -/
def initClientEnter (m : TelegramClientManager) (forceNew : Bool) :
    InitStage × TelegramClientManager :=
  if m.clientConnected && !forceNew then (.done (.ok ()), m)
  else
    let apiId := parseIntOpt m.config.apiId
    let apiHash := m.config.apiHash
    let stringSession := m.config.stringSession
    if !apiId.truthy || !truthyStr apiHash then
      (.done (.error "API credentials not configured"), m)
    else
      let fresh : Client :=
        { connected := false, session := if truthyStr stringSession then stringSession.getD "" else "" }
      let client : Client :=
        match m.client with
        | some c => if forceNew then fresh else c
        | none => fresh
      let m1 : TelegramClientManager := { m with client := some client }
      if !client.connected then
        (.pending (.connect stringSession), { m1 with calls := .connect :: m1.calls })
      else (.pending .isUserAuthorized, { m1 with calls := .isUserAuthorized :: m1.calls })

/-- The part of `initClient` from the end of `await this.client.connect()` to the next
`await` (lines 54-66); `answer` is what `connect` answered, `stringSession` the local of the
suspended call. -/
def initClientResumeConnect (answer : Except String String) (stringSession : Option String)
    (m : TelegramClientManager) : InitStage × TelegramClientManager :=
  match answer with
  | .error e => (.done (.error e), m)
  | .ok newSession =>
    let m3 : TelegramClientManager :=
      { m with client := some { connected := true, session := newSession } }
    let m4 : TelegramClientManager :=
      if some newSession ≠ stringSession then
        { m3 with config := { m3.config with stringSession := some newSession } }
      else m3
    (.pending .isUserAuthorized, { m4 with calls := .isUserAuthorized :: m4.calls })

/-- The part of `initClient` from the end of `await this.client.isUserAuthorized()` to the
return (lines 66-69). -/
def initClientResumeAuthorized (answer : Except String Bool) (m : TelegramClientManager) :
    Except String Unit × TelegramClientManager :=
  match answer with
  | .error e => (.error e, m)
  | .ok b => (.ok (), { m with authState := { m.authState with isAuthenticated := b } })

/-- A call of `initClient` that no other call interrupts: the parts one after the other. -/
def initClientAlone (a : InitAnswers) (m : TelegramClientManager) (forceNew : Bool) :
    Except String Unit × TelegramClientManager :=
  match initClientEnter m forceNew with
  | (.done r, m1) => (r, m1)
  | (.pending .isUserAuthorized, m1) => initClientResumeAuthorized a.isUserAuthorized m1
  | (.pending (.connect stringSession), m1) =>
    match initClientResumeConnect a.connect stringSession m1 with
    | (.done r, m2) => (r, m2)
    | (.pending _, m2) => initClientResumeAuthorized a.isUserAuthorized m2

/-- The state after `n` calls `initClient(forceNew)` have each run up to their first `await`,
none of them resumed yet, with the stage of each call, in the order of the calls. -/
def enterAll (forceNew : Bool) : Nat → TelegramClientManager →
    List InitStage × TelegramClientManager
  | 0, m => ([], m)
  | n + 1, m =>
    let first := initClientEnter m forceNew
    let rest := enterAll forceNew n first.2
    (first.1 :: rest.1, rest.2)

/-- The state after each of the calls suspended at `connect` is resumed with the answer
`answer`, in the order of the list; the calls are then suspended at `isUserAuthorized` or
have thrown. -/
def resumeAll (answer : Except String String) : List InitStage → TelegramClientManager →
    List InitStage × TelegramClientManager
  | [], m => ([], m)
  | .pending (.connect stringSession) :: rest, m =>
    let first := initClientResumeConnect answer stringSession m
    let others := resumeAll answer rest first.2
    (first.1 :: others.1, others.2)
  | stage :: rest, m =>
    let others := resumeAll answer rest m
    (stage :: others.1, others.2)

end TelegramClientManager

/-! # Theorems -/

/-! ## The session manager and the authentication middleware -/

theorem sequenceError_not_special :
    includes sequenceError "SESSION_PASSWORD_NEEDED" = false ∧
    includes sequenceError "PHONE_CODE_INVALID" = false := by decide

/-- C9: `signIn` called while the pending phone number or the pending code hash is unset
(null or empty) fails with the sequence error and returns the manager exactly as it was:
flags, pending fields, stored session and the list of backend calls are unchanged, so no
call to the backend is made, whatever the backend would have answered. -/
theorem C9_signIn_before_sendCode_is_sequence_error (a : Except String SignInReply)
    (m : TelegramClientManager) (code : String)
    (h : truthyStr m.authState.phoneNumber = false ∨ truthyStr m.authState.phoneCodeHash = false) :
    m.signIn a code = (.error sequenceError, m) := by
  have hs := sequenceError_not_special
  have hc : (!truthyStr m.authState.phoneNumber || !truthyStr m.authState.phoneCodeHash) = true := by
    rcases h with h | h <;> simp [h]
  unfold TelegramClientManager.signIn
  simp only [hc, if_true]
  have e : "Phone number or code hash missing. Please send code first." = sequenceError := rfl
  simp only [e, hs.1, hs.2]
  simp

theorem C9_witness_fresh_manager :
    truthyStr (TelegramClientManager.new demoConfig).authState.phoneNumber = false ∧
    (TelegramClientManager.new demoConfig).signIn
        (.ok { className := "auth.Authorization", user := none, session := "1AQAA" }) "12345" =
      (.error sequenceError, TelegramClientManager.new demoConfig) :=
  ⟨by decide, C9_signIn_before_sendCode_is_sequence_error _ _ _ (Or.inl (by decide))⟩


/-- C10: from an unauthenticated session with a pending phone number and code hash (and a
client to ask), an answer of the backend to `signIn` whose message holds
SESSION_PASSWORD_NEEDED makes `signIn` return the password-needed result without error, with
`isAuthenticated` still false and `passwordNeeded` true; a following `checkPassword` that the
backend accepts returns the session, sets `isAuthenticated` and stores the session text
under `stringSession`. -/
theorem C10_second_factor_then_password (m : TelegramClientManager) (c : Client)
    (code e password session : String)
    (hauth : m.authState.isAuthenticated = false)
    (hphone : truthyStr m.authState.phoneNumber = true)
    (hhash : truthyStr m.authState.phoneCodeHash = true)
    (hclient : m.client = some c)
    (he : includes e "SESSION_PASSWORD_NEEDED" = true) :
    (m.signIn (.error e) code).1 = .ok .needsPassword ∧
    (m.signIn (.error e) code).2.authState.isAuthenticated = false ∧
    (m.signIn (.error e) code).2.authState.passwordNeeded = true ∧
    ((m.signIn (.error e) code).2.checkPassword (.ok session) password).1 = .ok session ∧
    ((m.signIn (.error e) code).2.checkPassword (.ok session) password).2.authState.isAuthenticated
      = true ∧
    ((m.signIn (.error e) code).2.checkPassword (.ok session) password).2.config.stringSession
      = some session := by
  have hs : m.signIn (.error e) code =
      (.ok .needsPassword,
        { m with
          authState := { m.authState with passwordNeeded := true }
          calls := .signIn (m.authState.phoneNumber.getD "") (m.authState.phoneCodeHash.getD "") code
            :: m.calls }) := by
    unfold TelegramClientManager.signIn
    simp [hphone, hhash, hclient, he]
  rw [hs]
  simp [TelegramClientManager.checkPassword, hclient, hauth]

theorem C10_witness_pending_manager :
    (pendingManager.signIn (.error "400: SESSION_PASSWORD_NEEDED (caused by auth.SignIn)") "12345").1
      = .ok .needsPassword ∧
    ((pendingManager.signIn (.error "400: SESSION_PASSWORD_NEEDED (caused by auth.SignIn)")
        "12345").2.checkPassword (.ok "1BQAA") "secret").2.config.stringSession = some "1BQAA" :=
  have h := C10_second_factor_then_password pendingManager { connected := true, session := "1AQAA" }
    "12345" "400: SESSION_PASSWORD_NEEDED (caused by auth.SignIn)" "secret" "1BQAA"
    (by decide) (by decide) (by decide) (by decide) (by decide)
  ⟨h.1, h.2.2.2.2.2⟩

/-- C7, the claim as stated fails.  The path `/authors` is not under `/auth/`, the session is
not authenticated (before the request, and also after an `initClient` with this backend),
and the middleware calls `next()` without asking the backend, instead of answering 401.
Besides, for the path `/files/7/stream` and a store without credentials, `initClient` throws,
the session is not authenticated after it, and the answer is 500, not 401. -/
theorem C7_counterexample_authors_path :
    (startsWith "/authors" "/auth/" = false ∧
      ((TelegramClientManager.new demoConfig).initClient notAuthorized false).2.authState.isAuthenticated
        = false ∧
      authMiddleware notAuthorized (TelegramClientManager.new demoConfig) "/authors" =
        (.next, TelegramClientManager.new demoConfig)) ∧
    (startsWith "/files/7/stream" "/auth" = false ∧
      ((TelegramClientManager.new emptyConfig).initClient notAuthorized false).2.authState.isAuthenticated
        = false ∧
      authMiddleware notAuthorized (TelegramClientManager.new emptyConfig) "/files/7/stream" =
        (.respond
          { status := 500, body := [("error", .prim (.str "API credentials not configured"))] },
          TelegramClientManager.new emptyConfig)) := by decide

/-- C7 as amended: for a path that does not start with `/auth`, the authentication
middleware calls `initClient`; when it returns with the session not authenticated the
middleware answers 401 with `needsAuth: true` and does not call `next()`; when it returns
with the session authenticated the middleware calls `next()`; when it throws the middleware
answers 500 with the message and does not call `next()`. -/
theorem C7_middleware_on_paths_outside_auth (a : InitAnswers) (m : TelegramClientManager)
    (path : String) (hpath : startsWith path "/auth" = false) :
    (∀ m1, m.initClient a false = (.ok (), m1) → m1.authState.isAuthenticated = false →
      authMiddleware a m path = (.respond { status := 401, body := needsAuthBody }, m1)) ∧
    (∀ m1, m.initClient a false = (.ok (), m1) → m1.authState.isAuthenticated = true →
      authMiddleware a m path = (.next, m1)) ∧
    (∀ e m1, m.initClient a false = (.error e, m1) →
      authMiddleware a m path =
        (.respond { status := 500, body := [("error", .prim (.str e))] }, m1)) := by
  refine ⟨?_, ?_, ?_⟩
  · intro m1 h1 h2
    simp [authMiddleware, hpath, h1, h2, needsAuthBody]
  · intro m1 h1 h2
    simp [authMiddleware, hpath, h1, h2]
  · intro e m1 h1
    simp [authMiddleware, hpath, h1]

theorem C7_witness_stream_path_unauthenticated :
    authMiddleware notAuthorized (TelegramClientManager.new demoConfig) "/files/7/stream" =
      (.respond { status := 401, body := needsAuthBody },
        ((TelegramClientManager.new demoConfig).initClient notAuthorized false).2) :=
  (C7_middleware_on_paths_outside_auth notAuthorized (TelegramClientManager.new demoConfig)
    "/files/7/stream" (by decide)).1 _ rfl (by decide)

/-- C8, the claim as stated fails: with credentials configured and a backend that reports
the user as not authorized, `GET /status` is answered by the middleware with 401 and
`needsAuth: true`, not by the status route. -/
theorem C8_counterexample_status_unauthenticated :
    (getStatus notAuthorized (TelegramClientManager.new demoConfig)).1 =
      { status := 401, body := needsAuthBody } ∧
    (getStatus notAuthorized (TelegramClientManager.new demoConfig)).2.authState.isAuthenticated
      = false ∧
    (getStatus notAuthorized (TelegramClientManager.new demoConfig)).1 ≠
      statusRoute (getStatus notAuthorized (TelegramClientManager.new demoConfig)).2 := by decide

/-- C8 as amended: `GET /status` is behind the authentication middleware.  When `initClient` returns with the
session authenticated, the answer is 200 with `status`, `version`, `authenticated` and
`needsPassword`, the last two being the flags of the session at that moment; when it returns
with the session not authenticated, the answer is 401 with `needsAuth: true`; when it
throws, the answer is 500 with the message. -/
theorem C8_status_route_behind_middleware (a : InitAnswers) (m : TelegramClientManager) :
    (∀ m1, m.initClient a false = (.ok (), m1) → m1.authState.isAuthenticated = true →
      getStatus a m =
        ({ status := 200
           body :=
             [("status", .prim (.str "running")), ("version", .prim (.str "1.0.0")),
              ("authenticated", .prim (.bool true)),
              ("needsPassword", .prim (.bool m1.authState.passwordNeeded))] }, m1)) ∧
    (∀ m1, m.initClient a false = (.ok (), m1) → m1.authState.isAuthenticated = false →
      getStatus a m = ({ status := 401, body := needsAuthBody }, m1)) ∧
    (∀ e m1, m.initClient a false = (.error e, m1) →
      getStatus a m = ({ status := 500, body := [("error", .prim (.str e))] }, m1)) := by
  have hpath : startsWith "/status" "/auth" = false := by decide
  refine ⟨?_, ?_, ?_⟩
  · intro m1 h1 h2
    simp [getStatus, authMiddleware, hpath, h1, h2, statusRoute]
  · intro m1 h1 h2
    simp [getStatus, authMiddleware, hpath, h1, h2, needsAuthBody]
  · intro e m1 h1
    simp [getStatus, authMiddleware, hpath, h1]

theorem C8_witness_status_authenticated :
    (getStatus authorized (TelegramClientManager.new demoConfig)).1 =
      { status := 200
        body :=
          [("status", .prim (.str "running")), ("version", .prim (.str "1.0.0")),
           ("authenticated", .prim (.bool true)), ("needsPassword", .prim (.bool false))] } :=
  congrArg Prod.fst
    ((C8_status_route_behind_middleware authorized (TelegramClientManager.new demoConfig)).1
      ((TelegramClientManager.new demoConfig).initClient authorized false).2
      rfl (by decide))

/-! ## Decimal numerals and the parsing of the `Range` header -/

theorem digitChar_isDecDigit (d : Nat) (h : d < 10) :
    isDecDigit (Nat.digitChar d) = true ∧ (Nat.digitChar d).toNat - 48 = d := by
  interval_cases d <;> decide

theorem toDigitsCore_spec : ∀ (fuel n : Nat) (ds : List Char), n < fuel →
    ∃ l, Nat.toDigitsCore 10 fuel n ds = l ++ ds ∧ l ≠ [] ∧ (∀ c ∈ l, isDecDigit c = true) ∧
      ∀ acc, l.foldl (fun acc c => 10 * acc + (c.toNat - 48)) acc = acc * 10 ^ l.length + n := by
  intro fuel
  induction fuel with
  | zero => intro n ds h; omega
  | succ fuel ih =>
    intro n ds h
    have hd := digitChar_isDecDigit (n % 10) (Nat.mod_lt _ (by decide))
    unfold Nat.toDigitsCore
    by_cases hz : n / 10 = 0
    · refine ⟨[Nat.digitChar (n % 10)], by simp [hz], by simp, by simpa using hd.1, ?_⟩
      intro acc
      simp only [List.foldl_cons, List.foldl_nil, List.length_singleton, pow_one, hd.2]
      omega
    · obtain ⟨l, hl, hne, hdig, hval⟩ := ih (n / 10) (Nat.digitChar (n % 10) :: ds) (by omega)
      refine ⟨l ++ [Nat.digitChar (n % 10)], by simp [hz, hl], by simp, ?_, ?_⟩
      · intro c hc
        rcases List.mem_append.1 hc with hc | hc
        · exact hdig c hc
        · simp only [List.mem_singleton] at hc
          rw [hc]; exact hd.1
      · intro acc
        simp only [List.foldl_append, List.foldl_cons, List.foldl_nil, hval, hd.2,
          List.length_append, List.length_singleton, pow_succ]
        have := Nat.div_add_mod n 10
        nlinarith [this]

theorem toDigits_spec (n : Nat) :
    Nat.toDigits 10 n ≠ [] ∧ (∀ c ∈ Nat.toDigits 10 n, isDecDigit c = true) ∧
      decValue (Nat.toDigits 10 n) = n := by
  obtain ⟨l, hl, hne, hdig, hval⟩ := toDigitsCore_spec (n + 1) n [] (by omega)
  have e : Nat.toDigits 10 n = l := by simpa [Nat.toDigits] using hl
  rw [e]
  refine ⟨hne, hdig, ?_⟩
  simpa [decValue] using hval 0

theorem toString_nat_toList (n : Nat) : (toString n).toList = Nat.toDigits 10 n := rfl

theorem isDecDigit_facts (c : Char) (h : isDecDigit c = true) :
    isStrWhiteSpace c = false ∧ c ≠ '-' ∧ c ≠ '+' := by
  simp only [isDecDigit, Bool.and_eq_true, decide_eq_true_eq] at h
  refine ⟨?_, ?_, ?_⟩
  · simp only [isStrWhiteSpace, Bool.or_eq_false_iff, Bool.and_eq_false_iff, beq_eq_false_iff_ne,
      decide_eq_false_iff_not]
    omega
  · rintro rfl
    revert h; decide
  · rintro rfl
    revert h; decide

theorem parseIntChars_digits (l : List Char) (hne : l ≠ []) (hdig : ∀ c ∈ l, isDecDigit c = true) :
    parseIntChars l = Num.fin (decValue l) := by
  cases l with
  | nil => exact absurd rfl hne
  | cons c r =>
    have hc := isDecDigit_facts c (hdig c (List.mem_cons_self _ _))
    have htw : List.takeWhile isDecDigit (c :: r) = c :: r :=
      List.takeWhile_eq_self_iff.2 (fun x hx => hdig x hx)
    unfold parseIntChars
    simp [hc.1, hc.2.1, hc.2.2, htw]

theorem splitChars_no_sep (sep : Char) (l : List Char) (h : sep ∉ l) : splitChars sep l = [l] := by
  induction l with
  | nil => rfl
  | cons c r ih =>
    have hc : c ≠ sep := fun e => h (by simp [e])
    have hr : sep ∉ r := fun e => h (by simp [e])
    simp [splitChars, hc, ih hr]

theorem splitChars_append_sep (sep : Char) (l r : List Char) (h : sep ∉ l) :
    splitChars sep (l ++ sep :: r) = l :: splitChars sep r := by
  induction l with
  | nil => simp [splitChars]
  | cons c l ih =>
    have hc : c ≠ sep := fun e => h (by simp [e])
    have hl : sep ∉ l := fun e => h (by simp [e])
    simp [splitChars, hc, ih hl]

theorem dash_not_mem_digits (l : List Char) (hdig : ∀ c ∈ l, isDecDigit c = true) : '-' ∉ l :=
  fun h => (isDecDigit_facts _ (hdig _ h)).2.1 rfl

theorem removeFirst_bytes (r : List Char) :
    removeFirst "bytes=".toList ("bytes=".toList ++ r) = r := by
  have e : "bytes=".toList = ['b', 'y', 't', 'e', 's', '='] := rfl
  simp [e, removeFirst, List.isPrefixOf]

theorem rangeHeader_toList (start : Nat) (end_ : Option Nat) :
    (rangeHeader start end_).toList =
      "bytes=".toList ++ (Nat.toDigits 10 start ++ '-' ::
        (match end_ with
         | some e => Nat.toDigits 10 e
         | none => [])) := by
  have e1 : (toString start).data = Nat.toDigits 10 start := rfl
  have e2 : "-".data = ['-'] := rfl
  cases end_ with
  | none =>
    have e3 : "".data = [] := rfl
    simp only [rangeHeader, String.toList, String.data_append, e1, e2, e3, List.append_assoc,
      List.singleton_append, List.append_nil]
  | some e =>
    have e3 : (toString e).data = Nat.toDigits 10 e := rfl
    simp only [rangeHeader, String.toList, String.data_append, e1, e2, e3, List.append_assoc,
      List.singleton_append]

theorem rangeParts_rangeHeader (start : Nat) (end_ : Option Nat) :
    rangeParts (rangeHeader start end_) =
      [Nat.toDigits 10 start,
        (match end_ with
         | some e => Nat.toDigits 10 e
         | none => [])] := by
  unfold rangeParts
  rw [rangeHeader_toList, removeFirst_bytes,
    splitChars_append_sep _ _ _ (dash_not_mem_digits _ (toDigits_spec start).2.1)]
  cases end_ with
  | none => rfl
  | some e => rw [splitChars_no_sep _ _ (dash_not_mem_digits _ (toDigits_spec e).2.1)]

theorem rangeStart_rangeHeader (start : Nat) (end_ : Option Nat) :
    rangeStart (rangeHeader start end_) = Num.fin start := by
  unfold rangeStart
  rw [rangeParts_rangeHeader]
  have h := toDigits_spec start
  simp [parseIntChars_digits _ h.1 h.2.1, h.2.2]

theorem rangeEnd_rangeHeader (start : Nat) (end_ : Option Nat) (size : Int) :
    rangeEnd (rangeHeader start end_) size =
      (match end_ with
       | some e => Num.fin e
       | none => Num.fin (size - 1)) := by
  unfold rangeEnd
  rw [rangeParts_rangeHeader]
  cases end_ with
  | none => simp
  | some e =>
    have h := toDigits_spec e
    have hne : (Nat.toDigits 10 e).isEmpty = false := by
      cases hh : Nat.toDigits 10 e with
      | nil => exact absurd hh h.1
      | cons a b => rfl
    simp [hne, parseIntChars_digits _ h.1 h.2.1, h.2.2]

theorem rangeHeader_truthy (start : Nat) (end_ : Option Nat) :
    truthyStr (some (rangeHeader start end_)) = true := by
  simp only [truthyStr, rangeHeader_toList]
  rfl

theorem rangeStart_empty (h : String) (he : h.toList = []) : rangeStart h = Num.nan := by
  unfold rangeStart rangeParts
  rw [he]
  rfl

theorem natNum_toStr (n : Nat) : (Num.fin (n : Int)).toStr = toString n := by
  simp [Num.toStr]

/-! ## Traces -/

theorem fetchesOf_append (a b : List Event) : fetchesOf (a ++ b) = fetchesOf a ++ fetchesOf b := by
  induction a with
  | nil => rfl
  | cons e a ih => cases e <;> simp [fetchesOf, ih]

theorem writesOf_append (a b : List Event) : writesOf (a ++ b) = writesOf a ++ writesOf b := by
  induction a with
  | nil => rfl
  | cons e a ih => cases e <;> simp [writesOf, ih]

theorem fetchesOf_map_fetch (l : List Int) : fetchesOf (l.map Event.fetch) = l := by
  induction l with
  | nil => rfl
  | cons o l ih => simp [fetchesOf, ih]

theorem writesOf_map_fetch (l : List Int) : writesOf (l.map Event.fetch) = [] := by
  induction l with
  | nil => rfl
  | cons o l ih => simp [writesOf, ih]

theorem fetchesOf_writeBatch (range : Bool) (start : Int) (end_ : Num)
    (chunks : List (Option Chunk)) : fetchesOf (writeBatch range start end_ chunks) = [] := by
  induction chunks with
  | nil => rfl
  | cons c l ih =>
    cases c with
    | none => simpa [writeBatch] using ih
    | some c =>
      have : writeBatch range start end_ (some c :: l) =
          Event.write (trimChunk range start end_ c) :: writeBatch range start end_ l := by
        simp [writeBatch]
      rw [this]
      simpa [fetchesOf] using ih

theorem writesOf_writeBatch (env : StreamEnv) (range : Bool) (start : Int) (end_ : Num)
    (offs : List Int) :
    writesOf (writeBatch range start end_ (offs.map (fetchChunk env))) =
      offs.filterMap (contribution env range start end_) := by
  induction offs with
  | nil => rfl
  | cons o l ih =>
    cases h : fetchChunk env o with
    | none =>
      have e1 : writeBatch range start end_ ((o :: l).map (fetchChunk env)) =
          writeBatch range start end_ (l.map (fetchChunk env)) := by
        simp [writeBatch, h]
      rw [e1, ih]
      simp [contribution, h]
    | some c =>
      have e1 : writeBatch range start end_ ((o :: l).map (fetchChunk env)) =
          Event.write (trimChunk range start end_ c) ::
            writeBatch range start end_ (l.map (fetchChunk env)) := by
        simp [writeBatch, h]
      rw [e1]
      simp only [writesOf, ih]
      simp [contribution, h]

/-! ## The shape of the loop -/

theorem streamLoop_fetches (env : StreamEnv) (range : Bool) (start : Int) (requestEnd : Num) :
    ∀ (fuel k : Nat) (offset : Int),
      (streamLoop env range start requestEnd fuel k offset).map fetchesOf =
        launched env.destroyed requestEnd fuel k offset := by
  intro fuel
  induction fuel with
  | zero => intro k offset; rfl
  | succ fuel ih =>
    intro k offset
    unfold streamLoop launched
    by_cases h1 : Num.le (Num.fin offset) requestEnd = true
    · by_cases h2 : env.destroyed k = true
      · simp [h1, h2, fetchesOf]
      · have ih' := ih (k + 1) (launchBatch requestEnd MAX_PARALLEL_CHUNKS offset).2
        simp only [h1, h2, if_true, Bool.false_eq_true, if_false]
        cases h3 : streamLoop env range start requestEnd fuel (k + 1)
            (launchBatch requestEnd MAX_PARALLEL_CHUNKS offset).2 with
        | none =>
          rw [h3] at ih'
          simp only [Option.map_none'] at ih'
          simp [← ih']
        | some rest =>
          rw [h3] at ih'
          simp only [Option.map_some'] at ih'
          simp [← ih', fetchesOf_append, fetchesOf_map_fetch, fetchesOf_writeBatch]
    · simp [h1, fetchesOf]

theorem streamLoop_writes (env : StreamEnv) (range : Bool) (start : Int) (requestEnd : Num) :
    ∀ (fuel k : Nat) (offset : Int),
      (streamLoop env range start requestEnd fuel k offset).map writesOf =
        (launched env.destroyed requestEnd fuel k offset).map
          (List.filterMap (contribution env range start requestEnd)) := by
  intro fuel
  induction fuel with
  | zero => intro k offset; rfl
  | succ fuel ih =>
    intro k offset
    have hf := streamLoop_fetches env range start requestEnd fuel (k + 1)
      (launchBatch requestEnd MAX_PARALLEL_CHUNKS offset).2
    unfold streamLoop launched
    by_cases h1 : Num.le (Num.fin offset) requestEnd = true
    · by_cases h2 : env.destroyed k = true
      · simp [h1, h2, writesOf]
      · have ih' := ih (k + 1) (launchBatch requestEnd MAX_PARALLEL_CHUNKS offset).2
        simp only [h1, h2, if_true, Bool.false_eq_true, if_false]
        cases h3 : streamLoop env range start requestEnd fuel (k + 1)
            (launchBatch requestEnd MAX_PARALLEL_CHUNKS offset).2 with
        | none =>
          rw [h3] at hf
          simp only [Option.map_none'] at hf
          simp [← hf]
        | some rest =>
          rw [h3] at hf ih'
          simp only [Option.map_some'] at hf
          rw [← hf] at ih'
          simp only [Option.map_some', Option.some.injEq] at ih'
          simp [← hf, writesOf_append, writesOf_map_fetch, writesOf_writeBatch, ih',
            List.filterMap_append]
    · simp [h1, writesOf]

/-! ## The windows of a request -/

theorem CHUNK_SIZE_eq : CHUNK_SIZE = 262144 := rfl

theorem windowsFrom_zero (o : Int) : windowsFrom o 0 = [] := rfl

theorem windowsFrom_succ (o : Int) (n : Nat) :
    windowsFrom o (n + 1) = o :: windowsFrom (o + CHUNK_SIZE) n := by
  simp only [windowsFrom, List.range_succ_eq_map, List.map_cons, List.map_map]
  congr 1
  · simp
  · apply List.map_congr_left
    intro i _
    simp only [Function.comp, Nat.succ_eq_add_one]
    push_cast
    ring

theorem windowsFrom_add (o : Int) (a b : Nat) :
    windowsFrom o (a + b) = windowsFrom o a ++ windowsFrom (o + a * CHUNK_SIZE) b := by
  induction a generalizing o with
  | zero => simp [windowsFrom_zero]
  | succ a ih =>
    have e : a + 1 + b = (a + b) + 1 := by omega
    rw [e, windowsFrom_succ, windowsFrom_succ, ih]
    have e2 : o + (CHUNK_SIZE : Int) + (a : Int) * CHUNK_SIZE = o + ((a + 1 : Nat) : Int) * CHUNK_SIZE := by
      push_cast; ring
    rw [e2]
    rfl

theorem windowCount_advance (e o : Int) (b : Nat) (h : b ≤ windowCount e o) :
    windowCount e (o + b * CHUNK_SIZE) = windowCount e o - b := by
  simp only [windowCount, CHUNK_SIZE_eq] at h ⊢
  push_cast at h ⊢
  split_ifs at h ⊢ <;> omega

theorem windowCount_pos (e o : Int) (h : o ≤ e) : 0 < windowCount e o := by
  simp [windowCount, h]

theorem windowCount_of_gt (e o : Int) (h : ¬ o ≤ e) : windowCount e o = 0 := by
  simp [windowCount, h]

theorem launchBatch_nan (n : Nat) (o : Int) : launchBatch Num.nan n o = ([], o) := by
  cases n <;> simp [launchBatch, Num.le]

theorem launchBatch_fin (e : Int) : ∀ (n : Nat) (o : Int),
    launchBatch (Num.fin e) n o =
      (windowsFrom o (Nat.min n (windowCount e o)),
        o + (Nat.min n (windowCount e o) : Nat) * CHUNK_SIZE) := by
  intro n
  induction n with
  | zero => intro o; simp [launchBatch, windowsFrom_zero]
  | succ n ih =>
    intro o
    unfold launchBatch
    by_cases h : o ≤ e
    · have hs := windowCount_advance e o 1 (windowCount_pos e o h)
      simp only [Nat.cast_one, one_mul] at hs
      have hp := windowCount_pos e o h
      have hm : Nat.min (n + 1) (windowCount e o) = Nat.min n (windowCount e (o + CHUNK_SIZE)) + 1 := by
        rw [hs]
        simp only [Nat.min_def]
        split_ifs <;> omega
      simp only [Num.le, h, decide_True, if_true, ih, hm, windowsFrom_succ]
      congr 1
      push_cast
      ring
    · simp [Num.le, h, windowCount_of_gt e o h, windowsFrom_zero]

theorem launched_fin (destroyed : Nat → Bool) (hd : ∀ k, destroyed k = false) (e : Int) :
    ∀ (fuel k : Nat) (o : Int), windowCount e o < fuel →
      launched destroyed (Num.fin e) fuel k o = some (windowsFrom o (windowCount e o)) := by
  intro fuel
  induction fuel with
  | zero => intro k o h; omega
  | succ fuel ih =>
    intro k o h
    unfold launched
    by_cases hle : o ≤ e
    · have hp := windowCount_pos e o hle
      have hb : Nat.min MAX_PARALLEL_CHUNKS (windowCount e o) ≤ windowCount e o := Nat.min_le_right _ _
      have hb1 : 1 ≤ Nat.min MAX_PARALLEL_CHUNKS (windowCount e o) := by
        simp only [MAX_PARALLEL_CHUNKS, Nat.min_def]
        split_ifs <;> omega
      have hadv := windowCount_advance e o _ hb
      simp only [Num.le, hle, decide_True, if_true, hd k, Bool.false_eq_true, if_false,
        launchBatch_fin]
      rw [ih (k + 1) _ (by rw [hadv]; omega), hadv]
      simp only [Option.some.injEq]
      rw [← windowsFrom_add]
      congr 1
      omega
    · simp [Num.le, hle, windowCount_of_gt e o hle, windowsFrom_zero]

theorem launched_isSome (destroyed : Nat → Bool) (requestEnd : Num) :
    ∀ (fuel k : Nat) (o : Int), remaining requestEnd o < fuel →
      ∃ l, launched destroyed requestEnd fuel k o = some l := by
  intro fuel
  induction fuel with
  | zero => intro k o h; omega
  | succ fuel ih =>
    intro k o h
    cases requestEnd with
    | nan => exact ⟨[], by simp [launched, Num.le]⟩
    | fin e =>
      unfold launched
      by_cases hle : o ≤ e
      · by_cases hk : destroyed k = true
        · exact ⟨[], by simp [Num.le, hle, hk]⟩
        · have hp := windowCount_pos e o hle
          have hb : Nat.min MAX_PARALLEL_CHUNKS (windowCount e o) ≤ windowCount e o :=
            Nat.min_le_right _ _
          have hb1 : 1 ≤ Nat.min MAX_PARALLEL_CHUNKS (windowCount e o) := by
            simp only [MAX_PARALLEL_CHUNKS, Nat.min_def]
            split_ifs <;> omega
          have hadv := windowCount_advance e o _ hb
          simp only [remaining] at h
          obtain ⟨l, hl⟩ := ih (k + 1)
            (o + (Nat.min MAX_PARALLEL_CHUNKS (windowCount e o) : Nat) * CHUNK_SIZE)
            (by simp only [remaining]; rw [hadv]; omega)
          refine ⟨windowsFrom o (Nat.min MAX_PARALLEL_CHUNKS (windowCount e o)) ++ l, ?_⟩
          simp only [Num.le, hle, decide_True, if_true, hk, Bool.false_eq_true, if_false,
            launchBatch_fin, hl]
      · exact ⟨[], by simp [Num.le, hle]⟩

theorem streamLoop_isSome (env : StreamEnv) (range : Bool) (start : Int) (requestEnd : Num)
    (fuel k : Nat) (o : Int) (h : remaining requestEnd o < fuel) :
    ∃ evs, streamLoop env range start requestEnd fuel k o = some evs := by
  obtain ⟨l, hl⟩ := launched_isSome env.destroyed requestEnd fuel k o h
  have hf := streamLoop_fetches env range start requestEnd fuel k o
  rw [hl] at hf
  cases hs : streamLoop env range start requestEnd fuel k o with
  | none => rw [hs] at hf; simp at hf
  | some evs => exact ⟨evs, rfl⟩

theorem alignedStart_eq (s : Int) :
    Int.fdiv s CHUNK_SIZE * CHUNK_SIZE = s / 262144 * 262144 := by
  rw [Int.fdiv_eq_ediv _ (by simp [CHUNK_SIZE_eq]), CHUNK_SIZE_eq]
  rfl

theorem remaining_lt_enoughFuel (size : Nat) (s : Int) (hs : 0 ≤ s) (end0 : Num) :
    remaining (Num.min end0 (Num.fin ((size : Int) - 1))) (Int.fdiv s CHUNK_SIZE * CHUNK_SIZE) <
      enoughFuel size := by
  rw [alignedStart_eq]
  cases end0 with
  | nan => simp [Num.min, remaining, enoughFuel]
  | fin e0 =>
    simp only [Num.min, remaining, windowCount, enoughFuel, CHUNK_SIZE_eq]
    push_cast
    split_ifs <;> omega

theorem remaining_whole_lt_enoughFuel (size : Nat) :
    remaining (Num.fin ((size : Int) - 1)) (Int.fdiv 0 CHUNK_SIZE * CHUNK_SIZE) < enoughFuel size := by
  rw [alignedStart_eq]
  simp only [remaining, windowCount, enoughFuel, CHUNK_SIZE_eq]
  push_cast
  split_ifs <;> omega

/-! ## The head of the response -/

theorem splitChars_head_no_sep (sep : Char) (l : List Char) :
    sep ∉ (splitChars sep l).headD [] := by
  induction l with
  | nil => simp [splitChars]
  | cons c cs ih =>
    unfold splitChars
    by_cases hc : c = sep
    · simp [hc]
    · simp only [hc, if_false]
      cases hs : splitChars sep cs with
      | nil => simpa using fun e => hc e.symm
      | cons p ps =>
        rw [hs] at ih
        simp only [List.headD_cons] at ih ⊢
        intro hmem
        rcases List.mem_cons.1 hmem with e | e
        · exact hc e.symm
        · exact ih e

theorem parseIntChars_nonneg (l : List Char) (hl : '-' ∉ l) (s : Int)
    (h : parseIntChars l = Num.fin s) : 0 ≤ s := by
  unfold parseIntChars at h
  cases hd : List.dropWhile isStrWhiteSpace l with
  | nil => rw [hd] at h; simp at h
  | cons c r =>
    have hc : c ≠ '-' := by
      intro e
      apply hl
      have hmem : c ∈ List.dropWhile isStrWhiteSpace l := by rw [hd]; exact List.mem_cons_self _ _
      exact e ▸ (List.dropWhile_suffix _).subset hmem
    rw [hd] at h
    simp only [hc, if_false] at h
    by_cases hp : c = '+'
    · simp only [hp, if_true] at h
      split_ifs at h with h1 h2
      · exact absurd h2 id
      · simp only [Num.fin.injEq] at h
        omega
    · simp only [hp, if_false] at h
      split_ifs at h with h1 h2
      · exact absurd h2 id
      · simp only [Num.fin.injEq] at h
        omega

theorem rangeStart_nonneg (h : String) (s : Int) (hs : rangeStart h = Num.fin s) : 0 ≤ s :=
  parseIntChars_nonneg _ (splitChars_head_no_sep _ _) s hs

theorem handleStreamFile_of_lookup (env : StreamEnv) (m : TelegramClientManager) (req : Request)
    (doc : Document) (fuel : Nat) (hdoc : (lookupDocument env m req).1 = .ok doc) :
    (handleStreamFile env m req fuel).1 = streamDocument env doc req.range fuel := by
  unfold handleStreamFile
  cases hl : lookupDocument env m req with
  | mk r m1 =>
    rw [hl] at hdoc
    simp only at hdoc
    subst hdoc
    rfl

theorem handleStreamFile_of_lookup_error (env : StreamEnv) (m : TelegramClientManager)
    (req : Request) (r : JsonResponse) (fuel : Nat)
    (hdoc : (lookupDocument env m req).1 = .error r) :
    (handleStreamFile env m req fuel).1 = some [.json r] := by
  unfold handleStreamFile
  cases hl : lookupDocument env m req with
  | mk r1 m1 =>
    rw [hl] at hdoc
    simp only at hdoc
    subst hdoc
    rfl

theorem planStream_beyond (doc : Document) (h : String) (s : Int)
    (hs : rangeStart h = Num.fin s) (hge : (doc.size : Int) ≤ s) :
    planStream doc (some h) = .error (rangeNotSatisfiable (Num.fin s) doc.size) := by
  have hne : truthyStr (some h) = true := by
    cases hl : h.toList with
    | nil => rw [rangeStart_empty h hl] at hs; cases hs
    | cons c r => simp [truthyStr, String.toList] at hl ⊢; simp [hl]
  simp [planStream, hne, hs, hge]

theorem planStream_rangeHeader (doc : Document) (start : Nat) (end_ : Option Nat)
    (hlt : start < doc.size) :
    planStream doc (some (rangeHeader start end_)) =
      .ok
        { status := 206
          headers :=
            [("Content-Range",
                .str ("bytes " ++ toString start ++ "-" ++
                  toString (Nat.min (end_.getD (doc.size - 1)) (doc.size - 1)) ++ "/" ++
                  toString doc.size)),
             ("Accept-Ranges", .str "bytes"),
             ("Content-Length",
                .num (Num.fin ((Nat.min (end_.getD (doc.size - 1)) (doc.size - 1) : Nat) - start + 1))),
             ("Content-Type", .str (mimeTypeOf doc))]
          range := true
          start := start
          requestEnd := Num.fin (Nat.min (end_.getD (doc.size - 1)) (doc.size - 1) : Nat)
          offset := Int.fdiv start CHUNK_SIZE * CHUNK_SIZE } := by
  have hmin : Num.min (rangeEnd (rangeHeader start end_) doc.size) (Num.fin ((doc.size : Int) - 1)) =
      Num.fin (Nat.min (end_.getD (doc.size - 1)) (doc.size - 1) : Nat) := by
    rw [rangeEnd_rangeHeader]
    cases end_ with
    | none =>
      simp only [Num.min, Option.getD_none, le_refl, if_true, Num.fin.injEq, Nat.min_def]
      omega
    | some e =>
      simp only [Num.min, Option.getD_some, Num.fin.injEq, Nat.min_def]
      split_ifs <;> omega
  have hnot : ¬ ((doc.size : Int) ≤ (start : Int)) := by omega
  simp only [planStream, rangeHeader_truthy, if_true, Option.getD_some, rangeStart_rangeHeader,
    hnot, if_false, hmin, natNum_toStr, Num.sub, Num.add]

theorem planStream_none (doc : Document) :
    planStream doc none =
      .ok
        { status := 200
          headers :=
            [("Content-Length", .num (Num.fin doc.size)),
             ("Content-Type", .str (mimeTypeOf doc)),
             ("Accept-Ranges", .str "bytes")]
          range := false
          start := 0
          requestEnd := Num.fin ((doc.size : Int) - 1)
          offset := Int.fdiv 0 CHUNK_SIZE * CHUNK_SIZE } := rfl

theorem planStream_offset_remaining (doc : Document) (range : Option String) (p : StreamPlan)
    (hp : planStream doc range = .ok p) : remaining p.requestEnd p.offset < enoughFuel doc.size := by
  unfold planStream at hp
  by_cases hr : truthyStr range = true
  · simp only [hr, if_true] at hp
    cases hs : rangeStart (range.getD "") with
    | nan => rw [hs] at hp; cases hp
    | fin s =>
      rw [hs] at hp
      simp only at hp
      by_cases hge : (doc.size : Int) ≤ s
      · simp only [hge, if_true] at hp; cases hp
      · simp only [hge, if_false] at hp
        have h0 : 0 ≤ s := rangeStart_nonneg _ s hs
        cases hp
        exact remaining_lt_enoughFuel doc.size s h0 _
  · simp only [hr] at hp
    cases hp
    exact remaining_whole_lt_enoughFuel doc.size

theorem streamDocument_isSome (env : StreamEnv) (doc : Document) (range : Option String)
    (fuel : Nat) (hfuel : enoughFuel doc.size ≤ fuel) :
    ∃ evs, streamDocument env doc range fuel = some evs := by
  unfold streamDocument
  cases hp : planStream doc range with
  | error r => exact ⟨_, rfl⟩
  | ok p =>
    have hrem := planStream_offset_remaining doc range p hp
    obtain ⟨evs, hevs⟩ := streamLoop_isSome env p.range p.start p.requestEnd fuel 0 p.offset
      (by omega)
    exact ⟨Event.writeHead p.status p.headers :: evs ++ [Event.finish], by simp only [hevs]⟩

/-- C3: when the start read from the `Range` header is at or beyond the size of the
object, the handler answers 416 and nothing else happens on the response: no header of a
stream is written, no chunk is fetched, nothing is written to the body.  This holds for
every amount of fuel, the loop is not entered. -/
theorem C3_start_beyond_size_gives_416 (env : StreamEnv) (m : TelegramClientManager)
    (req : Request) (doc : Document) (fuel : Nat) (h : String) (s : Int)
    (hdoc : (lookupDocument env m req).1 = .ok doc) (hr : req.range = some h)
    (hs : rangeStart h = Num.fin s) (hge : (doc.size : Int) ≤ s) :
    ∃ evs, (handleStreamFile env m req fuel).1 = some evs ∧
      evs = [Event.json (rangeNotSatisfiable (Num.fin s) doc.size)] ∧
      (rangeNotSatisfiable (Num.fin s) doc.size).status = 416 ∧
      fetchesOf evs = [] ∧ writesOf evs = [] ∧ headOf evs = none := by
  refine ⟨[Event.json (rangeNotSatisfiable (Num.fin s) doc.size)], ?_, rfl, rfl, rfl, rfl, rfl⟩
  rw [handleStreamFile_of_lookup env m req doc fuel hdoc, hr]
  unfold streamDocument
  rw [planStream_beyond doc h s hs hge]

/-- An instance of C3: an object of 10 bytes asked from byte 10 on. -/
theorem C3_witness_ten_bytes_from_ten :
    (handleStreamFile (demoEnv { size := 10, mimeType := none } (List.range 10))
        (TelegramClientManager.new demoConfig) (demoRequest (some "bytes=10-")) 0).1 =
      some [Event.json (rangeNotSatisfiable (Num.fin 10) 10)] := by
  obtain ⟨evs, h1, h2, -⟩ := C3_start_beyond_size_gives_416
    (demoEnv { size := 10, mimeType := none } (List.range 10))
    (TelegramClientManager.new demoConfig) (demoRequest (some "bytes=10-"))
    { size := 10, mimeType := none } 0 "bytes=10-" 10 rfl rfl (by decide) (by decide)
  rw [h1, h2]
  rfl

/-- C4: for a header `bytes=<start>-<end>` (the end may be omitted) with `start` below the
size of the object, the handler first writes a head with status 206, `Content-Range:
bytes <start>-<e>/<size>`, `Accept-Ranges: bytes`, `Content-Length: e - start + 1` and the
content type, where `e` is the smaller of `end` and `size - 1`, and `size - 1` when the end is
omitted; without a `Range` header the head has status 200, `Content-Length: size`, the content
type and `Accept-Ranges: bytes`. -/
theorem C4_heads_of_206_and_200 (env : StreamEnv) (m : TelegramClientManager) (req : Request)
    (doc : Document) (fuel : Nat) (hdoc : (lookupDocument env m req).1 = .ok doc)
    (hfuel : enoughFuel doc.size ≤ fuel) :
    (∀ (start : Nat) (end_ : Option Nat), req.range = some (rangeHeader start end_) →
      start < doc.size →
      ∃ evs, (handleStreamFile env m req fuel).1 =
        some (Event.writeHead 206
          [("Content-Range",
              .str ("bytes " ++ toString start ++ "-" ++
                toString (Nat.min (end_.getD (doc.size - 1)) (doc.size - 1)) ++ "/" ++
                toString doc.size)),
           ("Accept-Ranges", .str "bytes"),
           ("Content-Length",
              .num (Num.fin ((Nat.min (end_.getD (doc.size - 1)) (doc.size - 1) : Nat) - start + 1))),
           ("Content-Type", .str (mimeTypeOf doc))] :: evs)) ∧
    (req.range = none →
      ∃ evs, (handleStreamFile env m req fuel).1 =
        some (Event.writeHead 200
          [("Content-Length", .num (Num.fin doc.size)),
           ("Content-Type", .str (mimeTypeOf doc)),
           ("Accept-Ranges", .str "bytes")] :: evs)) := by
  rw [handleStreamFile_of_lookup env m req doc fuel hdoc]
  constructor
  · intro start end_ hr hlt
    rw [hr]
    have hp := planStream_rangeHeader doc start end_ hlt
    have hrem := planStream_offset_remaining doc _ _ hp
    obtain ⟨evs, hevs⟩ := streamLoop_isSome env true start
      (Num.fin (Nat.min (end_.getD (doc.size - 1)) (doc.size - 1) : Nat)) fuel 0
      (Int.fdiv start CHUNK_SIZE * CHUNK_SIZE) (by simp only at hrem; omega)
    refine ⟨evs ++ [Event.finish], ?_⟩
    unfold streamDocument
    rw [hp]
    simp only [hevs, List.cons_append]
  · intro hr
    rw [hr]
    have hp := planStream_none doc
    have hrem := planStream_offset_remaining doc _ _ hp
    obtain ⟨evs, hevs⟩ := streamLoop_isSome env false 0 (Num.fin ((doc.size : Int) - 1)) fuel 0
      (Int.fdiv 0 CHUNK_SIZE * CHUNK_SIZE) (by simp only at hrem; omega)
    refine ⟨evs ++ [Event.finish], ?_⟩
    unfold streamDocument
    rw [hp]
    simp only [hevs, List.cons_append]

/-- An instance of C4: bytes 2 to 50 of an object of 10 bytes; the end is clamped to 9. -/
theorem C4_witness_clamped_end :
    ∃ evs, (handleStreamFile (demoEnv { size := 10, mimeType := none } (List.range 10))
        (TelegramClientManager.new demoConfig) (demoRequest (some (rangeHeader 2 (some 50)))) 2).1 =
      some (Event.writeHead 206
        [("Content-Range", .str "bytes 2-9/10"), ("Accept-Ranges", .str "bytes"),
         ("Content-Length", .num (Num.fin 8)),
         ("Content-Type", .str "application/octet-stream")] :: evs) :=
  (C4_heads_of_206_and_200 (demoEnv { size := 10, mimeType := none } (List.range 10))
    (TelegramClientManager.new demoConfig) (demoRequest (some (rangeHeader 2 (some 50))))
    { size := 10, mimeType := none } 2 rfl (by decide)).1 2 (some 50) rfl (by decide)

/-! ## Failed fetches -/

theorem filterMap_failing (failing : Int → Bool) (g : Int → Option Buffer)
    (hg : ∀ o, ∃ b, g o = some b) :
    ∀ l : List Int, (l.filterMap g).length = l.length ∧
      l.filterMap (fun o => if failing o then none else g o) =
        ((l.zip (l.filterMap g)).filter (fun p => !failing p.1)).map Prod.snd := by
  intro l
  induction l with
  | nil => simp
  | cons o l ih =>
    obtain ⟨b, hb⟩ := hg o
    have e1 : (o :: l).filterMap g = b :: l.filterMap g := by simp [List.filterMap_cons, hb]
    rw [e1]
    refine ⟨by simp [ih.1], ?_⟩
    by_cases hf : failing o = true
    · simp [List.filterMap_cons, hf, ih.2]
    · simp [List.filterMap_cons, hf, hb, ih.2]

theorem contribution_withFailures (failing : Int → Bool) (env : StreamEnv) (range : Bool)
    (start : Int) (end_ : Num) :
    contribution (withFailures failing env) range start end_ =
      fun o => if failing o then none else contribution env range start end_ o := by
  funext o
  by_cases hf : failing o = true <;> simp [contribution, fetchChunk, withFailures, hf]

theorem contribution_isSome (env : StreamEnv) (range : Bool) (start : Int) (end_ : Num)
    (hok : ∀ o, env.getFile o ≠ none) (o : Int) :
    ∃ b, contribution env range start end_ o = some b := by
  cases h : env.getFile o with
  | none => exact absurd h (hok o)
  | some bytes =>
    exact ⟨trimChunk range start end_ { offset := o, bytes := bytes },
      by simp [contribution, fetchChunk, h]⟩

theorem lookupDocument_withFailures (failing : Int → Bool) (env : StreamEnv)
    (m : TelegramClientManager) (req : Request) :
    lookupDocument (withFailures failing env) m req = lookupDocument env m req := rfl

theorem fetchesOf_stream (head : Event) (evs : List Event) (status : Nat)
    (headers : List (String × JPrim)) (hh : head = Event.writeHead status headers) :
    fetchesOf (head :: evs ++ [Event.finish]) = fetchesOf evs ∧
    writesOf (head :: evs ++ [Event.finish]) = writesOf evs ∧
    headOf (head :: evs ++ [Event.finish]) = some (status, headers) ∧
    (head :: evs ++ [Event.finish]).getLast? = some Event.finish := by
  subst hh
  refine ⟨?_, ?_, rfl, ?_⟩
  · have h1 := fetchesOf_append evs [Event.finish]
    have h2 : fetchesOf [Event.finish] = [] := rfl
    show fetchesOf (evs ++ [Event.finish]) = fetchesOf evs
    rw [h1, h2, List.append_nil]
  · have h1 := writesOf_append evs [Event.finish]
    have h2 : writesOf [Event.finish] = [] := rfl
    show writesOf (evs ++ [Event.finish]) = writesOf evs
    rw [h1, h2, List.append_nil]
  · have h1 : Event.writeHead status headers :: evs ++ [Event.finish] =
        (Event.writeHead status headers :: evs) ++ [Event.finish] := rfl
    rw [h1, List.getLast?_append]
    rfl

/-- C6: take a run in which every fetch succeeds, and let the fetches of the windows selected
by `failing` throw instead, everything else being equal.  The handler still produces a full
run: the same head, the same fetches in the same order (no window is given up because
another one failed) and the same last event.  In the run without failure every window has
one write; the writes of the run with failures are these, in the same order, without the
writes of the failing windows. -/
theorem C6_failed_windows_leave_gaps_only (env : StreamEnv) (failing : Int → Bool)
    (m : TelegramClientManager) (req : Request) (fuel : Nat) (evs : List Event)
    (hok : ∀ o, env.getFile o ≠ none)
    (hrun : (handleStreamFile env m req fuel).1 = some evs) :
    ∃ evs', (handleStreamFile (withFailures failing env) m req fuel).1 = some evs' ∧
      headOf evs' = headOf evs ∧
      fetchesOf evs' = fetchesOf evs ∧
      evs'.getLast? = evs.getLast? ∧
      (writesOf evs).length = (fetchesOf evs).length ∧
      writesOf evs' =
        (((fetchesOf evs).zip (writesOf evs)).filter (fun p => !failing p.1)).map Prod.snd := by
  cases hl : (lookupDocument env m req).1 with
  | error r =>
    have hl' : (lookupDocument (withFailures failing env) m req).1 = .error r := by
      rw [lookupDocument_withFailures]; exact hl
    rw [handleStreamFile_of_lookup_error env m req r fuel hl] at hrun
    rw [handleStreamFile_of_lookup_error _ m req r fuel hl']
    cases hrun
    exact ⟨_, rfl, rfl, rfl, rfl, rfl, rfl⟩
  | ok doc =>
    have hl' : (lookupDocument (withFailures failing env) m req).1 = .ok doc := by
      rw [lookupDocument_withFailures]; exact hl
    rw [handleStreamFile_of_lookup env m req doc fuel hl] at hrun
    rw [handleStreamFile_of_lookup _ m req doc fuel hl']
    unfold streamDocument at hrun ⊢
    cases hp : planStream doc req.range with
    | error r =>
      rw [hp] at hrun
      cases hrun
      exact ⟨_, rfl, rfl, rfl, rfl, rfl, rfl⟩
    | ok p =>
      rw [hp] at hrun
      simp only at hrun ⊢
      cases hloop : streamLoop env p.range p.start p.requestEnd fuel 0 p.offset with
      | none => rw [hloop] at hrun; cases hrun
      | some loopEvs =>
        rw [hloop] at hrun
        cases hrun
        have hf := streamLoop_fetches env p.range p.start p.requestEnd fuel 0 p.offset
        have hw := streamLoop_writes env p.range p.start p.requestEnd fuel 0 p.offset
        have hf' := streamLoop_fetches (withFailures failing env) p.range p.start p.requestEnd
          fuel 0 p.offset
        have hw' := streamLoop_writes (withFailures failing env) p.range p.start p.requestEnd
          fuel 0 p.offset
        have hd : (withFailures failing env).destroyed = env.destroyed := rfl
        rw [hd] at hf' hw'
        rw [hloop] at hf hw
        simp only [Option.map_some'] at hf hw
        rw [← hf] at hw hf' hw'
        simp only [Option.map_some', Option.some.injEq] at hw
        cases hloop' : streamLoop (withFailures failing env) p.range p.start p.requestEnd fuel 0
            p.offset with
        | none => rw [hloop'] at hf'; simp at hf'
        | some loopEvs' =>
          rw [hloop'] at hf' hw'
          simp only [Option.map_some', Option.some.injEq] at hf' hw'
          have hfm := filterMap_failing failing (contribution env p.range p.start p.requestEnd)
            (contribution_isSome env p.range p.start p.requestEnd hok) (fetchesOf loopEvs)
          rw [contribution_withFailures] at hw'
          rw [← hw] at hfm
          have t := fetchesOf_stream (Event.writeHead p.status p.headers) loopEvs p.status
            p.headers rfl
          have t' := fetchesOf_stream (Event.writeHead p.status p.headers) loopEvs' p.status
            p.headers rfl
          refine ⟨_, rfl, ?_, ?_, ?_, ?_, ?_⟩
          · rw [t.2.2.1, t'.2.2.1]
          · rw [t.1, t'.1, hf']
          · rw [t.2.2.2, t'.2.2.2]
          · rw [t.1, t.2.1]; exact hfm.1
          · rw [t.1, t.2.1, t'.2.1, hw']; exact hfm.2

/-- An instance of C6: three windows answered with the bytes 0, 1 and 2; when the fetch of
the window at 262144 fails, the three windows are fetched all the same and the body is 0, 2. -/
theorem C6_witness_middle_window_fails :
    ∃ evs', (handleStreamFile (withFailures (fun o => o == 262144) markedEnv)
        (TelegramClientManager.new demoConfig) (demoRequest none) 3).1 = some evs' ∧
      fetchesOf evs' = [0, 262144, 524288] ∧ writesOf evs' = [[0], [2]] := by
  obtain ⟨evs', h1, -, h3, -, -, h6⟩ := C6_failed_windows_leave_gaps_only markedEnv
    (fun o => o == 262144) (TelegramClientManager.new demoConfig) (demoRequest none) 3
    ((handleStreamFile markedEnv (TelegramClientManager.new demoConfig) (demoRequest none) 3).1.getD [])
    (by intro o; simp [markedEnv]) (by decide)
  exact ⟨evs', h1, h3.trans (by decide), h6.trans (by decide)⟩

/-! ## The whole object -/

theorem contribution_honest_whole (env : StreamEnv) (obj : Buffer)
    (hfetch : env.getFile = honestGetFile obj) (requestEnd : Num) (o : Int) :
    contribution env false 0 requestEnd o = some ((obj.drop o.toNat).take CHUNK_SIZE) := by
  simp [contribution, fetchChunk, hfetch, honestGetFile, trimChunk]

theorem flatten_windows_whole (env : StreamEnv) (obj : Buffer)
    (hfetch : env.getFile = honestGetFile obj) (requestEnd : Num) :
    ∀ (n o : Nat), ((windowsFrom o n).filterMap (contribution env false 0 requestEnd)).flatten =
      (obj.drop o).take (n * CHUNK_SIZE) := by
  intro n
  induction n with
  | zero => intro o; simp [windowsFrom_zero]
  | succ n ih =>
    intro o
    have e1 : ((o : Int) + (CHUNK_SIZE : Int)) = ((o + CHUNK_SIZE : Nat) : Int) := by push_cast; rfl
    rw [windowsFrom_succ, e1, List.filterMap_cons,
      contribution_honest_whole env obj hfetch requestEnd o]
    simp only [List.flatten_cons, ih, Int.toNat_ofNat]
    have e2 : (n + 1) * CHUNK_SIZE = CHUNK_SIZE + n * CHUNK_SIZE := by ring
    rw [e2, List.take_add, List.drop_drop]

/-- C2: without a `Range` header, when the backend serves the object honestly (each window
holds the bytes of the object from its offset on, at most `CHUNK_SIZE`, cut at the end of the
object), the consumer stays and the fuel is enough, the handler writes a head with status 200
and `Content-Length` equal to the size of the object, and the body is the object itself. -/
theorem C2_no_range_sends_whole_object (env : StreamEnv) (m : TelegramClientManager)
    (req : Request) (doc : Document) (obj : Buffer) (fuel : Nat)
    (hdoc : (lookupDocument env m req).1 = .ok doc) (hr : req.range = none)
    (hsize : doc.size = obj.length) (hfetch : env.getFile = honestGetFile obj)
    (hconn : ∀ k, env.destroyed k = false) (hfuel : enoughFuel doc.size ≤ fuel) :
    ∃ evs, (handleStreamFile env m req fuel).1 = some evs ∧
      headOf evs = some (200,
        [("Content-Length", .num (Num.fin obj.length)),
         ("Content-Type", .str (mimeTypeOf doc)),
         ("Accept-Ranges", .str "bytes")]) ∧
      bodyOf evs = obj ∧ (bodyOf evs).length = obj.length ∧
      evs.getLast? = some Event.finish := by
  rw [handleStreamFile_of_lookup env m req doc fuel hdoc, hr]
  have hrem := remaining_whole_lt_enoughFuel doc.size
  have h0 : Int.fdiv 0 (CHUNK_SIZE : Int) * (CHUNK_SIZE : Int) = ((0 : Nat) : Int) := by
    rw [alignedStart_eq]; rfl
  rw [h0] at hrem
  simp only [remaining] at hrem
  obtain ⟨loopEvs, hloop⟩ := streamLoop_isSome env false 0 (Num.fin ((doc.size : Int) - 1)) fuel 0
    ((0 : Nat) : Int) (by simp only [remaining]; omega)
  have hf := streamLoop_fetches env false 0 (Num.fin ((doc.size : Int) - 1)) fuel 0 ((0 : Nat) : Int)
  have hw := streamLoop_writes env false 0 (Num.fin ((doc.size : Int) - 1)) fuel 0 ((0 : Nat) : Int)
  rw [launched_fin env.destroyed hconn _ fuel 0 _ (by omega), hloop] at hf hw
  simp only [Option.map_some', Option.some.injEq] at hf hw
  have hbody : (writesOf loopEvs).flatten = obj := by
    rw [hw, flatten_windows_whole env obj hfetch]
    simp only [List.drop_zero]
    apply List.take_of_length_le
    simp only [windowCount, CHUNK_SIZE_eq, hsize]
    push_cast
    split_ifs <;> omega
  have t := fetchesOf_stream (Event.writeHead 200
      [("Content-Length", .num (Num.fin doc.size)),
       ("Content-Type", .str (mimeTypeOf doc)),
       ("Accept-Ranges", .str "bytes")]) loopEvs _ _ rfl
  refine ⟨Event.writeHead 200
      [("Content-Length", .num (Num.fin doc.size)),
       ("Content-Type", .str (mimeTypeOf doc)),
       ("Accept-Ranges", .str "bytes")] :: loopEvs ++ [Event.finish], ?_, ?_, ?_, ?_, t.2.2.2⟩
  · unfold streamDocument
    rw [planStream_none, h0]
    simp only [hloop]
  · rw [t.2.2.1, hsize]
  · unfold bodyOf
    rw [t.2.1, hbody]
  · unfold bodyOf
    rw [t.2.1, hbody]

/-- An instance of C2: an object of 10 bytes asked without a range. -/
theorem C2_witness_ten_bytes :
    ∃ evs, (handleStreamFile (demoEnv { size := 10, mimeType := none } (List.range 10))
        (TelegramClientManager.new demoConfig) (demoRequest none) 2).1 = some evs ∧
      bodyOf evs = List.range 10 := by
  obtain ⟨evs, h1, -, h3, -⟩ := C2_no_range_sends_whole_object
    (demoEnv { size := 10, mimeType := none } (List.range 10))
    (TelegramClientManager.new demoConfig) (demoRequest none) { size := 10, mimeType := none }
    (List.range 10) 2 rfl rfl rfl rfl (fun _ => rfl) (by decide)
  exact ⟨evs, h1, h3⟩

/-! ## The trimming of a chunk -/

theorem bufSlice_from (b : Buffer) (k : Nat) : bufSlice b (Num.fin (k : Int)) none = b.drop k := by
  have h : ¬ ((k : Int) < 0) := by omega
  simp only [bufSlice, clampIndex, h, if_false, Int.toNat_ofNat, List.take_length, Nat.min_def]
  split_ifs with h1
  · rfl
  · rw [List.drop_length, List.drop_of_length_le (by omega)]

theorem bufSlice_to (b : Buffer) (k : Nat) :
    bufSlice b (Num.fin 0) (some (Num.fin (k : Int))) = b.take k := by
  have h : ¬ ((k : Int) < 0) := by omega
  have h0 : ¬ ((0 : Int) < 0) := by omega
  simp only [bufSlice, clampIndex, h, h0, if_false, Int.toNat_ofNat, Int.toNat_zero, Nat.min_def,
    Nat.zero_le, if_true, List.drop_zero]
  split_ifs with h1
  · rfl
  · rw [List.take_length, List.take_of_length_le (by omega)]

theorem trimChunk_nat (start e o : Nat) (b : Buffer) (hoe : o ≤ e) :
    trimChunk true (start : Int) (Num.fin (e : Int)) { offset := (o : Int), bytes := b } =
      if e + 1 < o + (if o < start then b.drop (start - o) else b).length then
        (if o < start then b.drop (start - o) else b).take (e + 1 - o)
      else (if o < start then b.drop (start - o) else b) := by
  have e1 : (e : Int) - (o : Int) + 1 = ((e + 1 - o : Nat) : Int) := by omega
  have e2 : ∀ x : Nat, ((e : Int) + 1 < (o : Int) + (x : Int)) ↔ e + 1 < o + x := by
    intro x; omega
  unfold trimChunk
  simp only [if_true, Num.gt, Num.add, Num.sub, e1]
  by_cases hlt : o < start
  · have hlt' : (o : Int) < (start : Int) := by omega
    have e3 : (start : Int) - (o : Int) = ((start - o : Nat) : Int) := by omega
    simp only [hlt, hlt', if_true, e3, bufSlice_from, bufSlice_to, e2, decide_eq_true_eq]
  · have hlt' : ¬ (o : Int) < (start : Int) := by omega
    simp only [hlt, hlt', if_false, bufSlice_to, e2, decide_eq_true_eq]

theorem contribution_honest_range (env : StreamEnv) (obj : Buffer)
    (hfetch : env.getFile = honestGetFile obj) (start e o : Nat) :
    contribution env true (start : Int) (Num.fin (e : Int)) (o : Int) =
      some (trimChunk true (start : Int) (Num.fin (e : Int))
        { offset := (o : Int), bytes := (obj.drop o).take CHUNK_SIZE }) := by
  simp [contribution, fetchChunk, hfetch, honestGetFile]

/-- A window that begins at or after the start of the range gives the bytes of the object
from its offset on, up to the end of the window or of the range. -/
theorem trim_after_start (obj : Buffer) (start e o : Nat) (hso : start ≤ o) (hoe : o ≤ e) :
    trimChunk true (start : Int) (Num.fin (e : Int))
        { offset := (o : Int), bytes := (obj.drop o).take CHUNK_SIZE } =
      (obj.drop o).take (Nat.min (e + 1 - o) CHUNK_SIZE) := by
  rw [trimChunk_nat start e o _ hoe]
  have hlt : ¬ o < start := by omega
  simp only [hlt, if_false, List.take_take]
  split_ifs with h1
  · rfl
  · simp only [List.length_take, List.length_drop] at h1
    apply List.take_eq_take.2
    simp only [List.length_drop, Nat.min_def] at h1 ⊢
    split_ifs at h1 ⊢ <;> omega

/-- The first window of a range that begins inside it, when the bytes the backend returns
for it do not reach beyond the end of the range: the bytes of the window from the start of
the range on. -/
theorem trim_first_window (obj : Buffer) (start e o : Nat) (hos : o < start) (hoe : o ≤ e)
    (hfit : o + ((obj.drop o).take CHUNK_SIZE).length ≤ e + 1) :
    trimChunk true (start : Int) (Num.fin (e : Int))
        { offset := (o : Int), bytes := (obj.drop o).take CHUNK_SIZE } =
      (obj.drop start).take (o + CHUNK_SIZE - start) := by
  rw [trimChunk_nat start e o _ hoe]
  have hlen : (((obj.drop o).take CHUNK_SIZE).drop (start - o)).length ≤
      ((obj.drop o).take CHUNK_SIZE).length := by
    simp only [List.length_drop]; omega
  have h1 : ¬ (e + 1 < o + (((obj.drop o).take CHUNK_SIZE).drop (start - o)).length) := by omega
  simp only [hos, if_true, h1, if_false]
  have e1 : CHUNK_SIZE - (start - o) = o + CHUNK_SIZE - start := by omega
  have e2 : o + (start - o) = start := by omega
  rw [List.drop_take, List.drop_drop, e1, e2]

/-! ## The body of a range -/

theorem flatten_windows_after_start (env : StreamEnv) (obj : Buffer)
    (hfetch : env.getFile = honestGetFile obj) (start e : Nat) :
    ∀ (n o : Nat), start ≤ o → windowCount (e : Int) (o : Int) = n →
      ((windowsFrom (o : Int) n).filterMap
        (contribution env true (start : Int) (Num.fin (e : Int)))).flatten =
        (obj.drop o).take (e + 1 - o) := by
  intro n
  induction n with
  | zero =>
    intro o _ hc
    have hoe : ¬ ((o : Int) ≤ (e : Int)) := by
      intro h; have := windowCount_pos _ _ h; omega
    have e0 : e + 1 - o = 0 := by omega
    simp [windowsFrom_zero, e0]
  | succ n ih =>
    intro o hso hc
    have hoe' : (o : Int) ≤ (e : Int) := by
      by_contra h; rw [windowCount_of_gt _ _ h] at hc; omega
    have hoe : o ≤ e := by omega
    have hadv := windowCount_advance (e : Int) (o : Int) 1 (by omega)
    simp only [Nat.cast_one, one_mul] at hadv
    have e1 : ((o : Int) + (CHUNK_SIZE : Int)) = ((o + CHUNK_SIZE : Nat) : Int) := by push_cast; rfl
    rw [e1] at hadv
    have hrest := ih (o + CHUNK_SIZE) (by omega) (by omega)
    rw [windowsFrom_succ, e1, List.filterMap_cons,
      contribution_honest_range env obj hfetch start e o, trim_after_start obj start e o hso hoe]
    simp only [List.flatten_cons, hrest]
    by_cases h : e + 1 - o ≤ CHUNK_SIZE
    · have e2 : Nat.min (e + 1 - o) CHUNK_SIZE = e + 1 - o := Nat.min_eq_left h
      have e3 : e + 1 - (o + CHUNK_SIZE) = 0 := by omega
      rw [e2, e3]
      simp
    · have e2 : Nat.min (e + 1 - o) CHUNK_SIZE = CHUNK_SIZE := Nat.min_eq_right (by omega)
      have e3 : e + 1 - o = CHUNK_SIZE + (e + 1 - (o + CHUNK_SIZE)) := by omega
      rw [e2]
      conv_rhs => rw [e3, List.take_add, List.drop_drop]

/-- The bytes written for a range by an honest backend are the bytes of the range when the
start is a multiple of `CHUNK_SIZE`, or when the bytes of the first window end at or before
the end of the range (the range reaches the next window, or the end of the object). -/
theorem range_body (env : StreamEnv) (obj : Buffer) (hfetch : env.getFile = honestGetFile obj)
    (start e : Nat) (hse : start ≤ e)
    (hgood : start % CHUNK_SIZE = 0 ∨
      Nat.min (start / CHUNK_SIZE * CHUNK_SIZE + CHUNK_SIZE) obj.length ≤ e + 1) :
    ((windowsFrom ((start / CHUNK_SIZE * CHUNK_SIZE : Nat) : Int)
        (windowCount (e : Int) ((start / CHUNK_SIZE * CHUNK_SIZE : Nat) : Int))).filterMap
      (contribution env true (start : Int) (Num.fin (e : Int)))).flatten =
      sourceBytes obj start e := by
  unfold sourceBytes
  by_cases hal : start % CHUNK_SIZE = 0
  · have ea : start / CHUNK_SIZE * CHUNK_SIZE = start := by
      simp only [CHUNK_SIZE_eq] at hal ⊢; omega
    rw [ea]
    exact flatten_windows_after_start env obj hfetch start e _ start (le_refl _) rfl
  · have hfit : Nat.min (start / CHUNK_SIZE * CHUNK_SIZE + CHUNK_SIZE) obj.length ≤ e + 1 := by
      rcases hgood with h | h
      · exact absurd h hal
      · exact h
    generalize ha : start / CHUNK_SIZE * CHUNK_SIZE = a at hfit ⊢
    have ha1 : a < start := by simp only [CHUNK_SIZE_eq] at hal ha; omega
    have ha2 : start < a + CHUNK_SIZE := by simp only [CHUNK_SIZE_eq] at hal ha ⊢; omega
    have hae : a ≤ e := by omega
    have hae' : (a : Int) ≤ (e : Int) := by omega
    have hadv := windowCount_advance (e : Int) (a : Int) 1
      (by have := windowCount_pos _ _ hae'; omega)
    simp only [Nat.cast_one, one_mul] at hadv
    have e1 : ((a : Int) + (CHUNK_SIZE : Int)) = ((a + CHUNK_SIZE : Nat) : Int) := by push_cast; rfl
    rw [e1] at hadv
    have hpos := windowCount_pos _ _ hae'
    obtain ⟨n, hn⟩ : ∃ n, windowCount (e : Int) (a : Int) = n + 1 := ⟨_, (Nat.succ_pred_eq_of_pos hpos).symm⟩
    have hrest := flatten_windows_after_start env obj hfetch start e n (a + CHUNK_SIZE) (by omega)
      (by omega)
    have hfit' : a + ((obj.drop a).take CHUNK_SIZE).length ≤ e + 1 := by
      simp only [List.length_take, List.length_drop, Nat.min_def] at hfit ⊢
      split_ifs at hfit ⊢ <;> omega
    rw [hn, windowsFrom_succ, e1, List.filterMap_cons,
      contribution_honest_range env obj hfetch start e a,
      trim_first_window obj start e a ha1 hae hfit']
    simp only [List.flatten_cons, hrest]
    by_cases h : a + CHUNK_SIZE ≤ e + 1
    · have e3 : e + 1 - start = (a + CHUNK_SIZE - start) + (e + 1 - (a + CHUNK_SIZE)) := by omega
      have e4 : start + (a + CHUNK_SIZE - start) = a + CHUNK_SIZE := by omega
      conv_rhs => rw [e3, List.take_add, List.drop_drop, e4]
    · have e3 : e + 1 - (a + CHUNK_SIZE) = 0 := by omega
      rw [e3]
      simp only [List.take_zero, List.append_nil]
      apply List.take_eq_take.2
      simp only [List.length_drop, Nat.min_def] at hfit ⊢
      split_ifs at hfit ⊢ <;> omega

/-- The run for a header `bytes=<start>-<end>` with an honest backend and a consumer that
stays: the windows fetched are those from the aligned start up to the clamped end, and the
body is the range asked for, when the start is a multiple of `CHUNK_SIZE` or the bytes of the
first window end at or before the end of the range. -/
theorem handleStreamFile_range (env : StreamEnv) (m : TelegramClientManager) (req : Request)
    (doc : Document) (obj : Buffer) (fuel : Nat) (start : Nat) (end_ : Option Nat)
    (hdoc : (lookupDocument env m req).1 = .ok doc)
    (hr : req.range = some (rangeHeader start end_))
    (hfetch : env.getFile = honestGetFile obj)
    (hconn : ∀ k, env.destroyed k = false) (hfuel : enoughFuel doc.size ≤ fuel)
    (hlt : start < doc.size)
    (hse : start ≤ Nat.min (end_.getD (doc.size - 1)) (doc.size - 1))
    (hgood : start % CHUNK_SIZE = 0 ∨
      Nat.min (start / CHUNK_SIZE * CHUNK_SIZE + CHUNK_SIZE) obj.length ≤
        Nat.min (end_.getD (doc.size - 1)) (doc.size - 1) + 1) :
    ∃ evs, (handleStreamFile env m req fuel).1 = some evs ∧
      headOf evs = some (206,
        [("Content-Range",
            .str ("bytes " ++ toString start ++ "-" ++
              toString (Nat.min (end_.getD (doc.size - 1)) (doc.size - 1)) ++ "/" ++
              toString doc.size)),
         ("Accept-Ranges", .str "bytes"),
         ("Content-Length",
            .num (Num.fin ((Nat.min (end_.getD (doc.size - 1)) (doc.size - 1) : Nat) - start + 1))),
         ("Content-Type", .str (mimeTypeOf doc))]) ∧
      fetchesOf evs =
        windowsFrom ((start / CHUNK_SIZE * CHUNK_SIZE : Nat) : Int)
          (windowCount ((Nat.min (end_.getD (doc.size - 1)) (doc.size - 1) : Nat) : Int)
            ((start / CHUNK_SIZE * CHUNK_SIZE : Nat) : Int)) ∧
      bodyOf evs = sourceBytes obj start (Nat.min (end_.getD (doc.size - 1)) (doc.size - 1)) ∧
      evs.getLast? = some Event.finish := by
  generalize he : Nat.min (end_.getD (doc.size - 1)) (doc.size - 1) = e at hse hgood ⊢
  rw [handleStreamFile_of_lookup env m req doc fuel hdoc, hr]
  have hp := planStream_rangeHeader doc start end_ hlt
  rw [he] at hp
  have hrem := planStream_offset_remaining doc _ _ hp
  simp only [remaining] at hrem
  have hoff : Int.fdiv (start : Int) (CHUNK_SIZE : Int) * (CHUNK_SIZE : Int) =
      ((start / CHUNK_SIZE * CHUNK_SIZE : Nat) : Int) := by
    rw [alignedStart_eq, CHUNK_SIZE_eq]
    omega
  rw [hoff] at hp hrem
  obtain ⟨loopEvs, hloop⟩ := streamLoop_isSome env true start (Num.fin (e : Int)) fuel 0
    ((start / CHUNK_SIZE * CHUNK_SIZE : Nat) : Int) (by simp only [remaining]; omega)
  have hf := streamLoop_fetches env true start (Num.fin (e : Int)) fuel 0
    ((start / CHUNK_SIZE * CHUNK_SIZE : Nat) : Int)
  have hw := streamLoop_writes env true start (Num.fin (e : Int)) fuel 0
    ((start / CHUNK_SIZE * CHUNK_SIZE : Nat) : Int)
  rw [launched_fin env.destroyed hconn _ fuel 0 _ (by omega), hloop] at hf hw
  simp only [Option.map_some', Option.some.injEq] at hf hw
  have hbody : (writesOf loopEvs).flatten = sourceBytes obj start e := by
    rw [hw]
    exact range_body env obj hfetch start e hse hgood
  have t := fetchesOf_stream (Event.writeHead 206
      [("Content-Range",
          .str ("bytes " ++ toString start ++ "-" ++ toString e ++ "/" ++ toString doc.size)),
       ("Accept-Ranges", .str "bytes"),
       ("Content-Length", .num (Num.fin ((e : Nat) - start + 1))),
       ("Content-Type", .str (mimeTypeOf doc))]) loopEvs _ _ rfl
  refine ⟨_, ?_, t.2.2.1, ?_, ?_, t.2.2.2⟩
  · unfold streamDocument
    rw [hp]
    simp only [hloop]
  · rw [t.1, hf]
  · unfold bodyOf
    rw [t.2.1, hbody]

/-- C5: an object of 1,000,000 bytes asked with `Range: bytes=500000-600000`, served by an
honest backend to a consumer that stays.  The aligned start is 262144; the windows fetched
are those at 262144 and 524288, and every position from 262144 to 655359 lies in one of them;
the body is the bytes 500000 to 600000 of the object, 100001 bytes; the header
`Content-Range` is `bytes 500000-600000/1000000`. -/
theorem C5_scenario_500000_600000 (env : StreamEnv) (m : TelegramClientManager) (req : Request)
    (doc : Document) (obj : Buffer) (fuel : Nat)
    (hdoc : (lookupDocument env m req).1 = .ok doc)
    (hr : req.range = some "bytes=500000-600000")
    (hsize : doc.size = 1000000) (hobj : obj.length = 1000000)
    (hfetch : env.getFile = honestGetFile obj)
    (hconn : ∀ k, env.destroyed k = false) (hfuel : enoughFuel 1000000 ≤ fuel) :
    CHUNK_SIZE = 262144 ∧
    Int.fdiv 500000 (CHUNK_SIZE : Int) * (CHUNK_SIZE : Int) = 262144 ∧
    ∃ evs, (handleStreamFile env m req fuel).1 = some evs ∧
      fetchesOf evs = [262144, 524288] ∧
      (∀ i : Int, 262144 ≤ i → i ≤ 655359 →
        ∃ o ∈ fetchesOf evs, o ≤ i ∧ i < o + (CHUNK_SIZE : Int)) ∧
      bodyOf evs = sourceBytes obj 500000 600000 ∧
      (bodyOf evs).length = 100001 ∧
      ∃ status headers, headOf evs = some (status, headers) ∧ status = 206 ∧
        headers.lookup "Content-Range" = some (.str "bytes 500000-600000/1000000") := by
  refine ⟨rfl, by decide, ?_⟩
  have hh : "bytes=500000-600000" = rangeHeader 500000 (some 600000) := by decide
  rw [hh] at hr
  obtain ⟨evs, h1, h2, h3, h4, -⟩ := handleStreamFile_range env m req doc obj fuel 500000
    (some 600000) hdoc hr hfetch hconn (by rw [hsize]; exact hfuel)
    (by rw [hsize]; decide) (by rw [hsize]; decide) (by rw [hsize, hobj]; decide)
  rw [hsize] at h2 h3 h4
  have hw : windowsFrom ((500000 / CHUNK_SIZE * CHUNK_SIZE : Nat) : Int)
      (windowCount ((Nat.min ((some 600000 : Option Nat).getD (1000000 - 1)) (1000000 - 1) : Nat) : Int)
        ((500000 / CHUNK_SIZE * CHUNK_SIZE : Nat) : Int)) = [262144, 524288] := by decide
  have he : Nat.min ((some 600000 : Option Nat).getD (1000000 - 1)) (1000000 - 1) = 600000 := by
    decide
  rw [hw] at h3
  rw [he] at h4
  refine ⟨evs, h1, h3, ?_, h4, ?_, ?_⟩
  · intro i hi1 hi2
    rw [h3]
    by_cases hi : i < 524288
    · exact ⟨262144, by simp, hi1, by rw [CHUNK_SIZE_eq]; omega⟩
    · exact ⟨524288, by simp, by omega, by rw [CHUNK_SIZE_eq]; omega⟩
  · rw [h4]
    simp [sourceBytes, hobj]
  · refine ⟨_, _, h2, rfl, ?_⟩
    have hs : ("bytes " ++ toString 500000 ++ "-" ++
        toString (Nat.min ((some 600000 : Option Nat).getD (1000000 - 1)) (1000000 - 1)) ++ "/" ++
        toString 1000000 : String) = "bytes 500000-600000/1000000" := by decide
    rw [hs]
    rfl

/-- An instance of C5: the object made of 1,000,000 zero bytes. -/
theorem C5_witness_zero_object :
    ∃ evs, (handleStreamFile
        (demoEnv { size := 1000000, mimeType := none } (List.replicate 1000000 0))
        (TelegramClientManager.new demoConfig) (demoRequest (some "bytes=500000-600000")) 5).1 =
      some evs ∧ fetchesOf evs = [262144, 524288] ∧ (bodyOf evs).length = 100001 := by
  obtain ⟨evs, h1, h2, -, -, h5, -⟩ := (C5_scenario_500000_600000
    (demoEnv { size := 1000000, mimeType := none } (List.replicate 1000000 0))
    (TelegramClientManager.new demoConfig) (demoRequest (some "bytes=500000-600000"))
    { size := 1000000, mimeType := none } (List.replicate 1000000 0) 5 rfl rfl rfl
    (List.length_replicate _ _) rfl (fun _ => rfl) (by decide)).2.2
  exact ⟨evs, h1, h2, h5⟩

/-- C1, the code at the failing input: an object of the 10 bytes 0 to 9, asked with
`Range: bytes=2-5`.  The head announces `Content-Length: 4`, the bytes of the range are
2, 3, 4, 5, and the handler writes the six bytes 2 to 7: after the leading bytes are cut, the
test and the cut of the trailing bytes still count from the offset of the window. -/
theorem C1_range_inside_one_window_overshoots :
    (handleStreamFile (demoEnv { size := 10, mimeType := none } (List.range 10))
        (TelegramClientManager.new demoConfig) (demoRequest (some "bytes=2-5")) 2).1.map bodyOf =
      some [2, 3, 4, 5, 6, 7] ∧
    sourceBytes (List.range 10) 2 5 = [2, 3, 4, 5] ∧
    ((handleStreamFile (demoEnv { size := 10, mimeType := none } (List.range 10))
        (TelegramClientManager.new demoConfig) (demoRequest (some "bytes=2-5")) 2).1.bind headOf).map
      (fun h => h.2.lookup "Content-Length") = some (some (.num (Num.fin 4))) := by
  decide

/-! ## The password check and the rejected sign-in -/

/-- C11, the claim as stated fails: in a session with `passwordNeeded = false` (a code was
sent, no second factor was asked for), a `checkPassword` that the backend accepts succeeds,
sets `isAuthenticated` and stores the session text; the route answers 200. -/
theorem C11_counterexample_password_without_second_factor :
    pendingManager.authState.passwordNeeded = false ∧
    (pendingManager.checkPassword (.ok "1BQAA") "secret").1 = .ok "1BQAA" ∧
    (pendingManager.checkPassword (.ok "1BQAA") "secret").2.authState.isAuthenticated = true ∧
    (pendingManager.checkPassword (.ok "1BQAA") "secret").2.config.stringSession = some "1BQAA" ∧
    (handleVerifyPassword (.ok "1BQAA") pendingManager (some "secret")).1 =
      { status := 200
        body := [("success", .prim (.bool true)), ("session", .prim (.str "1BQAA"))] } :=
  ⟨rfl, rfl, rfl, rfl, by decide⟩

/-- C11 as amended: `checkPassword` does not read `passwordNeeded`.  In every session that
holds a client, whatever the flag, the outcome is that of the backend: when the backend
accepts, the call returns the session, sets `isAuthenticated` and stores the session text;
when the backend throws, the call fails with that same error and leaves the flags and the
stored configuration as they were.  Without a client the call fails and the manager is
unchanged, no call reaches the backend. -/
theorem C11_checkPassword_follows_backend (a : Except String String) (m : TelegramClientManager)
    (password : String) :
    (∀ c session, m.client = some c → a = .ok session →
      (m.checkPassword a password).1 = .ok session ∧
      (m.checkPassword a password).2.authState.isAuthenticated = true ∧
      (m.checkPassword a password).2.config.stringSession = some session) ∧
    (∀ c e, m.client = some c → a = .error e →
      (m.checkPassword a password).1 = .error e ∧
      (m.checkPassword a password).2.authState = m.authState ∧
      (m.checkPassword a password).2.config = m.config) ∧
    (m.client = none →
      (m.checkPassword a password).2 = m ∧
      ∃ e, (m.checkPassword a password).1 = .error e) := by
  refine ⟨?_, ?_, ?_⟩
  · intro c session hc ha
    subst ha
    simp [TelegramClientManager.checkPassword, hc]
  · intro c e hc ha
    subst ha
    simp [TelegramClientManager.checkPassword, hc]
  · intro hc
    simp [TelegramClientManager.checkPassword, hc]

/-- An instance of C11 as amended: the backend rejects the password in the pending session. -/
theorem C11_witness_rejected_password :
    (pendingManager.checkPassword (.error "PASSWORD_HASH_INVALID") "secret").1 =
      .error "PASSWORD_HASH_INVALID" ∧
    (pendingManager.checkPassword (.error "PASSWORD_HASH_INVALID") "secret").2.authState =
      pendingManager.authState :=
  have h := (C11_checkPassword_follows_backend (.error "PASSWORD_HASH_INVALID") pendingManager
    "secret").2.1 { connected := true, session := "1AQAA" } "PASSWORD_HASH_INVALID" rfl rfl
  ⟨h.1, h.2.1⟩

theorem unregisteredError_not_special :
    includes unregisteredError "SESSION_PASSWORD_NEEDED" = false ∧
    includes unregisteredError "PHONE_CODE_INVALID" = false := by decide

/-- C12: in a session with a pending phone number and code hash and a client to ask,
(1) when `auth.SignIn` answers that a sign-up is required, `signIn` fails with the error of
the unregistered number, and (2) when it throws an error whose message holds
PHONE_CODE_INVALID (and not the second-factor code), `signIn` fails with the error of the
invalid code; in both cases `isAuthenticated`, `passwordNeeded` and the stored configuration
are unchanged.  (3) In every session, whatever the answer, `signIn` turns `isAuthenticated`
from false to true only when `auth.SignIn` returned, and returned something else than a
sign-up request. -/
theorem C12_rejected_signIn_changes_nothing (m : TelegramClientManager) (c : Client)
    (code : String)
    (hphone : truthyStr m.authState.phoneNumber = true)
    (hhash : truthyStr m.authState.phoneCodeHash = true)
    (hclient : m.client = some c) :
    (∀ reply : SignInReply, reply.className = "auth.AuthorizationSignUpRequired" →
      (m.signIn (.ok reply) code).1 = .error unregisteredError ∧
      (m.signIn (.ok reply) code).2.authState = m.authState ∧
      (m.signIn (.ok reply) code).2.config = m.config) ∧
    (∀ e : String, includes e "PHONE_CODE_INVALID" = true →
      includes e "SESSION_PASSWORD_NEEDED" = false →
      (m.signIn (.error e) code).1 = .error invalidCodeError ∧
      (m.signIn (.error e) code).2.authState = m.authState ∧
      (m.signIn (.error e) code).2.config = m.config) ∧
    (∀ a : Except String SignInReply, m.authState.isAuthenticated = false →
      (m.signIn a code).2.authState.isAuthenticated = true →
      ∃ reply, a = .ok reply ∧ reply.className ≠ "auth.AuthorizationSignUpRequired") := by
  have hu := unregisteredError_not_special
  have eu : "This phone number is not registered with Telegram" = unregisteredError := rfl
  refine ⟨?_, ?_, ?_⟩
  · intro reply hr
    unfold TelegramClientManager.signIn
    simp [hphone, hhash, hclient, hr, eu, hu.1, hu.2]
  · intro e he1 he2
    unfold TelegramClientManager.signIn
    simp [hphone, hhash, hclient, he1, he2, invalidCodeError]
  · intro a hfalse htrue
    cases a with
    | error e =>
      exfalso
      unfold TelegramClientManager.signIn at htrue
      simp only [hphone, hhash, hclient, Bool.not_true, Bool.or_self, Bool.false_eq_true,
        if_false] at htrue
      split_ifs at htrue <;> simp [hfalse] at htrue
    | ok reply =>
      refine ⟨reply, rfl, ?_⟩
      intro hr
      unfold TelegramClientManager.signIn at htrue
      simp [hphone, hhash, hclient, hr, eu, hu.1, hu.2, hfalse] at htrue

/-- An instance of C12: the pending session and a rejected code. -/
theorem C12_witness_rejected_code :
    (pendingManager.signIn (.error "400: PHONE_CODE_INVALID (caused by auth.SignIn)") "00000").1 =
      .error invalidCodeError ∧
    (pendingManager.signIn (.error "400: PHONE_CODE_INVALID (caused by auth.SignIn)")
      "00000").2.authState = pendingManager.authState :=
  have h := (C12_rejected_signIn_changes_nothing pendingManager
    { connected := true, session := "1AQAA" } "00000" (by decide) (by decide) rfl).2.1
    "400: PHONE_CODE_INVALID (caused by auth.SignIn)" (by decide) (by decide)
  ⟨h.1, h.2.1⟩

/-! ## The invariant of the session -/

theorem initClient_frame (a : InitAnswers) (m : TelegramClientManager) (forceNew : Bool) :
    (m.initClient a forceNew).2.authState.passwordNeeded = m.authState.passwordNeeded ∧
    (m.initClient a forceNew).2.authState.phoneNumber = m.authState.phoneNumber ∧
    (m.initClient a forceNew).2.authState.phoneCodeHash = m.authState.phoneCodeHash ∧
    (∀ x ∈ m.calls, x ∈ (m.initClient a forceNew).2.calls) ∧
    (∀ x ∈ (m.initClient a forceNew).2.calls,
      x ∈ m.calls ∨ x = BackendCall.connect ∨ x = BackendCall.isUserAuthorized) := by
  unfold TelegramClientManager.initClient
  by_cases h0 : (m.clientConnected && !forceNew) = true
  · simp [h0]; tauto
  · simp only [h0, Bool.false_eq_true, if_false]
    by_cases h1 : (!(parseIntOpt m.config.apiId).truthy || !truthyStr m.config.apiHash) = true
    · simp [h1]; tauto
    · simp only [h1, Bool.false_eq_true, if_false]
      generalize (match m.client with
        | some c =>
          if forceNew = true then
            ({ connected := false
               session := if truthyStr m.config.stringSession = true
                 then m.config.stringSession.getD "" else "" } : Client)
          else c
        | none =>
          { connected := false
            session := if truthyStr m.config.stringSession = true
              then m.config.stringSession.getD "" else "" }) = client
      by_cases h2 : client.connected = true
      · cases hu : a.isUserAuthorized <;> simp [h2, hu] <;> tauto
      · cases hc : a.connect with
        | error e => simp [h2, hc]; tauto
        | ok newSession =>
          by_cases h3 : some newSession = m.config.stringSession <;>
            cases hu : a.isUserAuthorized <;> simp [h2, hc, hu, h3] <;> tauto

theorem checkPassword_frame (a : Except String String) (m : TelegramClientManager)
    (password : String) :
    (m.checkPassword a password).2.authState.passwordNeeded = m.authState.passwordNeeded ∧
    (m.checkPassword a password).2.authState.phoneNumber = m.authState.phoneNumber ∧
    (∀ x ∈ m.calls, x ∈ (m.checkPassword a password).2.calls) ∧
    (∀ x ∈ (m.checkPassword a password).2.calls,
      x ∈ m.calls ∨ x = BackendCall.checkPassword password) := by
  unfold TelegramClientManager.checkPassword
  cases hm : m.client with
  | none => simp; tauto
  | some c => cases a <;> simp <;> tauto

theorem signIn_frame (a : Except String SignInReply) (m : TelegramClientManager) (code : String) :
    (m.signIn a code).2.authState.phoneNumber = m.authState.phoneNumber ∧
    (∀ x ∈ m.calls, x ∈ (m.signIn a code).2.calls) ∧
    (∀ x ∈ (m.signIn a code).2.calls,
      x ∈ m.calls ∨
        (x = BackendCall.signIn (m.authState.phoneNumber.getD "")
          (m.authState.phoneCodeHash.getD "") code ∧ truthyStr m.authState.phoneNumber = true)) ∧
    ((m.signIn a code).2.authState.passwordNeeded = true →
      m.authState.passwordNeeded = true ∨
        BackendCall.signIn (m.authState.phoneNumber.getD "") (m.authState.phoneCodeHash.getD "")
          code ∈ (m.signIn a code).2.calls) := by
  have hs := sequenceError_not_special
  have hu := unregisteredError_not_special
  have hn : includes "Cannot read properties of null (reading \x27invoke\x27)"
      "SESSION_PASSWORD_NEEDED" = false ∧
      includes "Cannot read properties of null (reading \x27invoke\x27)"
      "PHONE_CODE_INVALID" = false := by decide
  have hi : includes "Cannot read properties of undefined (reading \x27id\x27)"
      "SESSION_PASSWORD_NEEDED" = false ∧
      includes "Cannot read properties of undefined (reading \x27id\x27)"
      "PHONE_CODE_INVALID" = false := by decide
  have es : "Phone number or code hash missing. Please send code first." = sequenceError := rfl
  have eu : "This phone number is not registered with Telegram" = unregisteredError := rfl
  unfold TelegramClientManager.signIn
  by_cases hp : truthyStr m.authState.phoneNumber = true
  · by_cases hh : truthyStr m.authState.phoneCodeHash = true
    · cases hm : m.client with
      | none => simp [hp, hh, hn.1, hn.2]; tauto
      | some c =>
        cases a with
        | error e =>
          by_cases h1 : includes e "SESSION_PASSWORD_NEEDED" = true
          · simp [hp, hh, h1]; tauto
          · by_cases h2 : includes e "PHONE_CODE_INVALID" = true <;> simp [hp, hh, h1, h2] <;> tauto
        | ok reply =>
          by_cases hr : reply.className = "auth.AuthorizationSignUpRequired"
          · simp [hp, hh, hr, eu, hu.1, hu.2]; tauto
          · cases hus : reply.user with
            | none => simp [hp, hh, hr, hus, hi.1, hi.2]; tauto
            | some u => simp [hp, hh, hr, hus]; tauto
    · simp [hp, hh, es, hs.1, hs.2]; tauto
  · simp [hp, es, hs.1, hs.2]; tauto

theorem sendCode_frame (a : SendCodeAnswers) (m : TelegramClientManager) (phoneNumber : String) :
    (m.sendCode a phoneNumber).2.authState.passwordNeeded = m.authState.passwordNeeded ∧
    (∀ x ∈ m.calls, x ∈ (m.sendCode a phoneNumber).2.calls) ∧
    (∀ x ∈ (m.sendCode a phoneNumber).2.calls,
      x ∈ m.calls ∨ x = BackendCall.connect ∨ x = BackendCall.isUserAuthorized ∨
        x = BackendCall.sendCode phoneNumber ∨ x = BackendCall.disconnect) ∧
    ((m.sendCode a phoneNumber).2.authState.phoneNumber = m.authState.phoneNumber ∨
      BackendCall.sendCode phoneNumber ∈ (m.sendCode a phoneNumber).2.calls) := by
  have hf := initClient_frame a.init m true
  unfold TelegramClientManager.sendCode
  cases hi : m.initClient a.init true with
  | mk r m1 =>
    rw [hi] at hf
    simp only at hf
    obtain ⟨f1, f2, -, f4, f5⟩ := hf
    cases r with
    | error e =>
      simp only
      by_cases h1 : includes e "AUTH_RESTART" = true
      · cases hc : m1.client with
        | none =>
          simp only [h1, if_true, hc]
          exact ⟨f1, f4, fun x hx => by have := f5 x hx; tauto, Or.inl f2⟩
        | some c =>
          simp only [h1, if_true, hc]
          refine ⟨f1, fun x hx => List.mem_cons_of_mem _ (f4 x hx), ?_, Or.inl f2⟩
          intro x hx
          rcases List.mem_cons.1 hx with hx | hx
          · tauto
          · have := f5 x hx; tauto
      · simp only [h1, Bool.false_eq_true, if_false]
        exact ⟨f1, f4, fun x hx => by have := f5 x hx; tauto, Or.inl f2⟩
    | ok u =>
      cases hsc : a.sendCode with
      | error e =>
        simp only
        by_cases h1 : includes e "AUTH_RESTART" = true
        · cases hc : m1.client with
          | none =>
            simp only [h1, if_true, hc]
            refine ⟨f1, fun x hx => List.mem_cons_of_mem _ (f4 x hx), ?_, Or.inl f2⟩
            intro x hx
            rcases List.mem_cons.1 hx with hx | hx
            · tauto
            · have := f5 x hx; tauto
          | some c =>
            simp only [h1, if_true, hc]
            refine ⟨f1, fun x hx => List.mem_cons_of_mem _ (List.mem_cons_of_mem _ (f4 x hx)),
              ?_, Or.inl f2⟩
            intro x hx
            rcases List.mem_cons.1 hx with hx | hx
            · tauto
            · rcases List.mem_cons.1 hx with hx | hx
              · tauto
              · have := f5 x hx; tauto
        · simp only [h1, Bool.false_eq_true, if_false]
          refine ⟨f1, fun x hx => List.mem_cons_of_mem _ (f4 x hx), ?_, Or.inl f2⟩
          intro x hx
          rcases List.mem_cons.1 hx with hx | hx
          · tauto
          · have := f5 x hx; tauto
      | ok result =>
        simp only
        refine ⟨f1, fun x hx => List.mem_cons_of_mem _ (f4 x hx), ?_,
          Or.inr (List.mem_cons_self _ _)⟩
        intro x hx
        rcases List.mem_cons.1 hx with hx | hx
        · tauto
        · have := f5 x hx; tauto

/-- What holds in every state of the session: the flag `passwordNeeded` is set only after a
call of `auth.SignIn` reached the backend, such a call only after a call of `auth.SendCode`
reached it, and a pending phone number is there only after a call of `auth.SendCode`. -/
theorem reachable_calls (config : Config) (m : TelegramClientManager) (h : Reachable config m) :
    (m.authState.passwordNeeded = true → hasSignInCall m) ∧
    (hasSignInCall m → hasSendCodeCall m) ∧
    (truthyStr m.authState.phoneNumber = true → hasSendCodeCall m) := by
  induction h with
  | start =>
    refine ⟨?_, ?_, ?_⟩
    · intro h; cases h
    · rintro ⟨p, h, c, hx⟩; cases hx
    · intro h; cases h
  | initClient a forceNew hr ih =>
    rename_i m0
    obtain ⟨f1, f2, -, f4, f5⟩ := initClient_frame a m0 forceNew
    obtain ⟨i1, i2, i3⟩ := ih
    have mono : hasSendCodeCall m0 → hasSendCodeCall (m0.initClient a forceNew).2 :=
      fun ⟨p, hp⟩ => ⟨p, f4 _ hp⟩
    have back : hasSignInCall (m0.initClient a forceNew).2 → hasSignInCall m0 := by
      rintro ⟨p, h, c, hx⟩
      rcases f5 _ hx with hx | hx | hx
      · exact ⟨p, h, c, hx⟩
      · cases hx
      · cases hx
    refine ⟨?_, ?_, ?_⟩
    · intro h
      rw [f1] at h
      obtain ⟨p, hh, c, hx⟩ := i1 h
      exact ⟨p, hh, c, f4 _ hx⟩
    · intro h; exact mono (i2 (back h))
    · intro h; rw [f2] at h; exact mono (i3 h)
  | sendCode a phoneNumber hr ih =>
    rename_i m0
    obtain ⟨f1, f2, f3, f4⟩ := sendCode_frame a m0 phoneNumber
    obtain ⟨i1, i2, i3⟩ := ih
    have mono : hasSendCodeCall m0 → hasSendCodeCall (m0.sendCode a phoneNumber).2 :=
      fun ⟨p, hp⟩ => ⟨p, f2 _ hp⟩
    have back : hasSignInCall (m0.sendCode a phoneNumber).2 → hasSignInCall m0 := by
      rintro ⟨p, h, c, hx⟩
      rcases f3 _ hx with hx | hx | hx | hx | hx
      · exact ⟨p, h, c, hx⟩
      all_goals cases hx
    refine ⟨?_, ?_, ?_⟩
    · intro h
      rw [f1] at h
      obtain ⟨p, hh, c, hx⟩ := i1 h
      exact ⟨p, hh, c, f2 _ hx⟩
    · intro h; exact mono (i2 (back h))
    · intro h
      rcases f4 with e | hx
      · rw [e] at h; exact mono (i3 h)
      · exact ⟨phoneNumber, hx⟩
  | signIn a code hr ih =>
    rename_i m0
    obtain ⟨f1, f2, f3, f4⟩ := signIn_frame a m0 code
    obtain ⟨i1, i2, i3⟩ := ih
    have mono : hasSendCodeCall m0 → hasSendCodeCall (m0.signIn a code).2 :=
      fun ⟨p, hp⟩ => ⟨p, f2 _ hp⟩
    refine ⟨?_, ?_, ?_⟩
    · intro h
      rcases f4 h with h | h
      · obtain ⟨p, hh, c, hx⟩ := i1 h
        exact ⟨p, hh, c, f2 _ hx⟩
      · exact ⟨_, _, _, h⟩
    · rintro ⟨p, h, c, hx⟩
      rcases f3 _ hx with hx | ⟨-, hp⟩
      · exact mono (i2 ⟨p, h, c, hx⟩)
      · exact mono (i3 hp)
    · intro h; rw [f1] at h; exact mono (i3 h)
  | checkPassword a password hr ih =>
    rename_i m0
    obtain ⟨f1, f2, f3, f4⟩ := checkPassword_frame a m0 password
    obtain ⟨i1, i2, i3⟩ := ih
    have mono : hasSendCodeCall m0 → hasSendCodeCall (m0.checkPassword a password).2 :=
      fun ⟨p, hp⟩ => ⟨p, f3 _ hp⟩
    have back : hasSignInCall (m0.checkPassword a password).2 → hasSignInCall m0 := by
      rintro ⟨p, h, c, hx⟩
      rcases f4 _ hx with hx | hx
      · exact ⟨p, h, c, hx⟩
      · cases hx
    refine ⟨?_, ?_, ?_⟩
    · intro h
      rw [f1] at h
      obtain ⟨p, hh, c, hx⟩ := i1 h
      exact ⟨p, hh, c, f3 _ hx⟩
    · intro h; exact mono (i2 (back h))
    · intro h; rw [f2] at h; exact mono (i3 h)

/-- C15, the claim as stated fails: after a complete login with a second factor (a code is
sent, `signIn` is answered with SESSION_PASSWORD_NEEDED, `checkPassword` is accepted) the
session is reachable and has `passwordNeeded = true` together with `isAuthenticated = true`. -/
theorem C15_counterexample_two_factor_login :
    Reachable demoConfig twoFactorLogin ∧
    twoFactorLogin.authState.passwordNeeded = true ∧
    twoFactorLogin.authState.isAuthenticated = true :=
  ⟨Reachable.checkPassword _ _ (Reachable.signIn _ _ (Reachable.sendCode _ _ Reachable.start)),
    by decide, by decide⟩

/-- C15 as amended: in every state that calls of `initClient`, `sendCode`, `signIn` and
`checkPassword` produce from a fresh manager, whatever the backend answers,
`passwordNeeded = true` implies that a call of `auth.SignIn` reached the backend earlier, and
before it a call of `auth.SendCode`.  Nothing is said of `isAuthenticated`: the flag
`passwordNeeded` is never cleared. -/
theorem C15_passwordNeeded_follows_signIn (config : Config) (m : TelegramClientManager)
    (hr : Reachable config m) (hp : m.authState.passwordNeeded = true) :
    hasSignInCall m ∧ hasSendCodeCall m :=
  have h := reachable_calls config m hr
  ⟨h.1 hp, h.2.1 (h.1 hp)⟩

/-- An instance of C15 as amended: the session after a login with a second factor. -/
theorem C15_witness_two_factor_login :
    hasSignInCall twoFactorLogin ∧ hasSendCodeCall twoFactorLogin :=
  C15_passwordNeeded_follows_signIn demoConfig twoFactorLogin
    (Reachable.checkPassword _ _ (Reachable.signIn _ _ (Reachable.sendCode _ _ Reachable.start)))
    (by decide)

/-! ## The bounds of an accepted range -/

/-- For a `Range` header that is not answered with 416, the start is within the object and
the end, when it is a number, is at most the last position of the object. -/
theorem planStream_accepted_bounds (doc : Document) (h : String) (p : StreamPlan)
    (hne : truthyStr (some h) = true) (hp : planStream doc (some h) = .ok p) :
    0 ≤ p.start ∧ p.start ≤ (doc.size : Int) - 1 ∧
      ∀ e, p.requestEnd = Num.fin e → e ≤ (doc.size : Int) - 1 := by
  unfold planStream at hp
  simp only [hne, if_true, Option.getD_some] at hp
  cases hs : rangeStart h with
  | nan => rw [hs] at hp; cases hp
  | fin s =>
    rw [hs] at hp
    simp only at hp
    by_cases hge : (doc.size : Int) ≤ s
    · simp only [hge, if_true] at hp; cases hp
    · simp only [hge, if_false] at hp
      have h0 : 0 ≤ s := rangeStart_nonneg h s hs
      cases hp
      dsimp only
      refine ⟨h0, by omega, ?_⟩
      intro e he
      cases hend : rangeEnd h (doc.size : Int) with
      | nan => simp only [hend, Num.min] at he; cases he
      | fin e0 =>
        simp only [hend, Num.min, Num.fin.injEq] at he
        split_ifs at he <;> omega

/-- For a header `bytes=<start>-<end>` whose end is omitted or not below its start, the
accepted range is ordered and the announced length is at least 1. -/
theorem planStream_rangeHeader_ordered (doc : Document) (start : Nat) (end_ : Option Nat)
    (hlt : start < doc.size) (hord : ∀ e, end_ = some e → start ≤ e) :
    start ≤ Nat.min (end_.getD (doc.size - 1)) (doc.size - 1) ∧
    (1 : Int) ≤ ((Nat.min (end_.getD (doc.size - 1)) (doc.size - 1) : Nat) : Int) - start + 1 := by
  have h1 : start ≤ Nat.min (end_.getD (doc.size - 1)) (doc.size - 1) := by
    cases end_ with
    | none => simp only [Option.getD_none, Nat.min_def]; split_ifs <;> omega
    | some e =>
      have := hord e rfl
      simp only [Option.getD_some, Nat.min_def]; split_ifs <;> omega
  exact ⟨h1, by omega⟩

/-- C16, the code at the failing inputs: for an object of 10 bytes, the header
`bytes=5-3` is accepted (status 206) with start 5 and end 3, the head announces
`Content-Range: bytes 5-3/10` and `Content-Length: -1`, and one window is fetched; the header
`bytes=5-abc` is accepted with an end that is not a number. -/
theorem C16_end_below_start_is_accepted :
    (planStream { size := 10, mimeType := none } (some "bytes=5-3")).toOption.map
        (fun p => (p.status, p.start, p.requestEnd)) = some (206, 5, Num.fin 3) ∧
    ((handleStreamFile (demoEnv { size := 10, mimeType := none } (List.range 10))
        (TelegramClientManager.new demoConfig) (demoRequest (some "bytes=5-3")) 2).1.bind headOf).map
      (fun h => (h.2.lookup "Content-Range", h.2.lookup "Content-Length")) =
        some (some (.str "bytes 5-3/10"), some (.num (Num.fin (-1)))) ∧
    (handleStreamFile (demoEnv { size := 10, mimeType := none } (List.range 10))
        (TelegramClientManager.new demoConfig) (demoRequest (some "bytes=5-3")) 2).1.map fetchesOf =
      some [0] ∧
    (planStream { size := 10, mimeType := none } (some "bytes=5-abc")).toOption.map
        (fun p => (p.status, p.start, p.requestEnd)) = some (206, 5, Num.nan) := by
  decide

/-! ## The listing -/

theorem documentOf_isSome_iff (msg : ListedMessage) :
    (documentOf msg).isSome = true ↔ carriesDocument msg := by
  unfold documentOf carriesDocument
  cases hm : msg.media with
  | none => simp
  | some media =>
    cases hd : media.document with
    | none => simp [hd]
    | some document => simp [hd]

theorem findAttribute_eq (msg : ListedMessage) (p : DocumentAttribute → Bool) :
    findAttribute msg p = (attributesOf msg).find? p := by
  unfold findAttribute documentOf attributesOf
  cases hm : msg.media with
  | none => simp
  | some media =>
    cases hd : media.document with
    | none => simp [hd]
    | some document =>
      cases ha : document.attributes with
      | none => simp [hd, ha]
      | some as => simp [hd, ha]

theorem find_fileName (as : List DocumentAttribute) :
    (as.find? (fun attr => truthyStr attr.fileName)).bind (fun attr => attr.fileName) =
      (as.filterMap (fun attr => attr.fileName)).find? (fun s => truthyStr (some s)) := by
  induction as with
  | nil => rfl
  | cons a as ih =>
    rw [List.find?_cons, List.filterMap_cons]
    cases hf : a.fileName with
    | none =>
      have h1 : truthyStr (none : Option String) = false := rfl
      simp only [h1]
      exact ih
    | some s =>
      by_cases ht : truthyStr (some s) = true
      · simp only [ht, List.find?_cons]
        exact hf
      · have h2 : truthyStr (some s) = false := by simpa using ht
        simp only [h2, List.find?_cons]
        exact ih

theorem orZero_follows (source : Option Num) : followsOrZero source (orZero source) := by
  constructor
  · intro h; subst h; rfl
  · intro n h hn; subst h; simp [orZero, hn]

theorem documentOf_size (msg : ListedMessage) :
    (documentOf msg).bind (fun document => document.size) = sizeOf? msg := by
  unfold documentOf sizeOf?
  cases hm : msg.media with
  | none => rfl
  | some media =>
    cases hd : media.document with
    | none => simp [hd]
    | some document => simp [hd]

theorem fileEntry_spec (msg : ListedMessage) : EntryFor msg (fileEntry msg) := by
  have hname : (findAttribute msg (fun attr => truthyStr attr.fileName)).bind
      (fun attr => attr.fileName) = fileNameOf msg := by
    rw [findAttribute_eq, find_fileName]; rfl
  have hvideo : findAttribute msg isVideoAttribute = videoOf msg := findAttribute_eq msg _
  refine ⟨rfl, ?_, ?_, ?_, ?_, ?_, ?_⟩
  · intro s hs
    have ht : truthyStr (some s) = true := by
      have := List.find?_some (by unfold fileNameOf at hs; exact hs)
      simpa using this
    simp only [fileEntry, hname, hs, ht, if_true, Option.getD_some]
  · intro hn
    have ht : truthyStr (none : Option String) = false := rfl
    simp only [fileEntry, hname, hn, ht, Bool.false_eq_true, if_false]
  · simp only [fileEntry, documentOf_size]; exact orZero_follows _
  · simp only [fileEntry, hvideo]; exact orZero_follows _
  · simp only [fileEntry, hvideo]; exact orZero_follows _
  · simp only [fileEntry, hvideo]; exact orZero_follows _

/-- C14: when `initClient` returns and the backend returns a list of messages for the
container, the handler answers with the array `files` and no error.  The array has one entry
for each message that carries a document, in the order of the backend; the entry of a
message has its id, as name the first file name that is not empty among the attributes of
its document and `File_<id>` when there is none, and as size, duration, width and height the
value of the document or of its first video attribute, and 0 when that is absent.  For an
empty list of messages the array is empty. -/
theorem C14_listing_follows_messages (env : ListEnv) (m m1 : TelegramClientManager)
    (groupId : String) (messages : List ListedMessage)
    (hinit : m.initClient env.init false = (.ok (), m1))
    (hmsgs : env.getMessages groupId = .ok messages) :
    ∃ files, handleListGroupFiles env m groupId = (.files files, m1) ∧
      List.Forall₂ EntryFor (messages.filter (fun msg => decide (carriesDocument msg))) files ∧
      files.length = (messages.filter (fun msg => decide (carriesDocument msg))).length ∧
      (messages = [] → files = []) := by
  have hfilter : (fun msg : ListedMessage => (documentOf msg).isSome) =
      (fun msg => decide (carriesDocument msg)) := by
    funext msg
    by_cases h : carriesDocument msg
    · simp [h, (documentOf_isSome_iff msg).2 h]
    · have : ¬ (documentOf msg).isSome = true := fun h1 => h ((documentOf_isSome_iff msg).1 h1)
      simp [h, this]
  refine ⟨(messages.filter (fun msg => decide (carriesDocument msg))).map fileEntry, ?_, ?_, ?_, ?_⟩
  · simp only [handleListGroupFiles, hinit, hmsgs, hfilter]
  · rw [List.forall₂_map_right_iff]
    exact List.forall₂_same.2 (fun msg _ => fileEntry_spec msg)
  · simp
  · intro h; subst h; rfl

/-- An instance of C14: a container with a named video, a message without media and a
document without attributes. -/
theorem C14_witness_three_messages :
    ∃ files, handleListGroupFiles { init := authorized, getMessages := fun _ => .ok demoMessages }
        (TelegramClientManager.new demoConfig) "-1001234" =
        (.files files, ((TelegramClientManager.new demoConfig).initClient authorized false).2) ∧
      files.length = 2 := by
  obtain ⟨files, h1, -, h3, -⟩ := C14_listing_follows_messages
    { init := authorized, getMessages := fun _ => .ok demoMessages }
    (TelegramClientManager.new demoConfig)
    ((TelegramClientManager.new demoConfig).initClient authorized false).2 "-1001234"
    demoMessages rfl rfl
  exact ⟨files, h1, h3.trans (by decide)⟩

/-! ## The batches of the loop -/

theorem streamLoop_batches (env : StreamEnv) (range : Bool) (start : Int) (requestEnd : Num) :
    ∀ (fuel k : Nat) (offset : Int),
      streamLoop env range start requestEnd fuel k offset =
        (launchedBatches env.destroyed requestEnd fuel k offset).map
          (fun bs => (bs.map (batchEvents env range start requestEnd)).flatten) := by
  intro fuel
  induction fuel with
  | zero => intro k offset; rfl
  | succ fuel ih =>
    intro k offset
    unfold streamLoop launchedBatches
    by_cases h1 : Num.le (Num.fin offset) requestEnd = true
    · by_cases h2 : env.destroyed k = true
      · simp [h1, h2]
      · simp only [h1, h2, if_true, Bool.false_eq_true, if_false]
        rw [ih (k + 1) (launchBatch requestEnd MAX_PARALLEL_CHUNKS offset).2]
        cases launchedBatches env.destroyed requestEnd fuel (k + 1)
            (launchBatch requestEnd MAX_PARALLEL_CHUNKS offset).2 with
        | none => rfl
        | some rest => simp [batchEvents, List.append_assoc]
    · simp [h1]

theorem launched_batches (destroyed : Nat → Bool) (requestEnd : Num) :
    ∀ (fuel k : Nat) (offset : Int),
      launched destroyed requestEnd fuel k offset =
        (launchedBatches destroyed requestEnd fuel k offset).map List.flatten := by
  intro fuel
  induction fuel with
  | zero => intro k offset; rfl
  | succ fuel ih =>
    intro k offset
    unfold launched launchedBatches
    by_cases h1 : Num.le (Num.fin offset) requestEnd = true
    · by_cases h2 : destroyed k = true
      · simp [h1, h2]
      · simp only [h1, h2, if_true, Bool.false_eq_true, if_false]
        rw [ih (k + 1) (launchBatch requestEnd MAX_PARALLEL_CHUNKS offset).2]
        cases launchedBatches destroyed requestEnd fuel (k + 1)
            (launchBatch requestEnd MAX_PARALLEL_CHUNKS offset).2 with
        | none => rfl
        | some rest => simp
    · simp [h1]

theorem launchedBatches_sizes (destroyed : Nat → Bool) (hd : ∀ k, destroyed k = false) (e : Int) :
    ∀ (fuel k : Nat) (o : Int), windowCount e o < fuel →
      ∃ bs, launchedBatches destroyed (Num.fin e) fuel k o = some bs ∧
        (∀ b ∈ bs, 0 < b.length ∧ b.length ≤ MAX_PARALLEL_CHUNKS) ∧
        (∀ b ∈ bs.dropLast, b.length = MAX_PARALLEL_CHUNKS) ∧
        (windowCount e o = 0 → bs = []) := by
  intro fuel
  induction fuel with
  | zero => intro k o h; omega
  | succ fuel ih =>
    intro k o h
    unfold launchedBatches
    by_cases hle : o ≤ e
    · have hp := windowCount_pos e o hle
      have hb : Nat.min MAX_PARALLEL_CHUNKS (windowCount e o) ≤ windowCount e o := Nat.min_le_right _ _
      have hb1 : 1 ≤ Nat.min MAX_PARALLEL_CHUNKS (windowCount e o) := by
        simp only [MAX_PARALLEL_CHUNKS, Nat.min_def]
        split_ifs <;> omega
      have hb2 : Nat.min MAX_PARALLEL_CHUNKS (windowCount e o) ≤ MAX_PARALLEL_CHUNKS :=
        Nat.min_le_left _ _
      have hadv := windowCount_advance e o _ hb
      obtain ⟨rest, hrest, hsz, hfull, hnil⟩ := ih (k + 1)
        (o + (Nat.min MAX_PARALLEL_CHUNKS (windowCount e o) : Nat) * CHUNK_SIZE)
        (by rw [hadv]; omega)
      have hlen : (windowsFrom o (Nat.min MAX_PARALLEL_CHUNKS (windowCount e o))).length =
          Nat.min MAX_PARALLEL_CHUNKS (windowCount e o) := by simp [windowsFrom]
      refine ⟨windowsFrom o (Nat.min MAX_PARALLEL_CHUNKS (windowCount e o)) :: rest, ?_, ?_, ?_, ?_⟩
      · simp only [Num.le, hle, decide_True, if_true, hd k, Bool.false_eq_true, if_false,
          launchBatch_fin, hrest]
      · intro b hb'
        rcases List.mem_cons.1 hb' with hb' | hb'
        · rw [hb', hlen]; exact ⟨by omega, hb2⟩
        · exact hsz b hb'
      · intro b hb'
        by_cases hr : rest = []
        · rw [hr] at hb'; simp at hb'
        · rw [List.dropLast_cons_of_ne_nil hr] at hb'
          rcases List.mem_cons.1 hb' with hb' | hb'
          · rw [hb', hlen]
            have hne : windowCount e o - Nat.min MAX_PARALLEL_CHUNKS (windowCount e o) ≠ 0 := by
              intro h0
              exact hr (hnil (by rw [hadv]; exact h0))
            simp only [MAX_PARALLEL_CHUNKS, Nat.min_def] at hne ⊢
            split_ifs at hne ⊢ <;> omega
          · exact hfull b hb'
      · intro h0; omega
    · exact ⟨[], by simp [Num.le, hle], by simp, by simp, fun _ => rfl⟩

theorem planStream_offset (doc : Document) (range : Option String) (p : StreamPlan)
    (hp : planStream doc range = .ok p) :
    p.offset = Int.fdiv p.start CHUNK_SIZE * CHUNK_SIZE := by
  unfold planStream at hp
  by_cases hr : truthyStr range = true
  · simp only [hr, if_true] at hp
    cases hs : rangeStart (range.getD "") with
    | nan => rw [hs] at hp; cases hp
    | fin s =>
      rw [hs] at hp
      simp only at hp
      by_cases hge : (doc.size : Int) ≤ s
      · simp only [hge, if_true] at hp; cases hp
      · simp only [hge, if_false] at hp
        cases hp
        rfl
  · simp only [hr] at hp
    cases hp
    rfl

theorem windowCount_aligned (e s : Int) :
    windowCount e (Int.fdiv s CHUNK_SIZE * CHUNK_SIZE) =
      (Int.fdiv e CHUNK_SIZE - Int.fdiv s CHUNK_SIZE + 1).toNat := by
  have hc : (0 : Int) ≤ (CHUNK_SIZE : Int) := by simp
  rw [Int.fdiv_eq_ediv _ hc, Int.fdiv_eq_ediv _ hc]
  simp only [windowCount, CHUNK_SIZE_eq]
  push_cast
  split_ifs <;> omega

theorem windowsFrom_facts (o : Int) (n : Nat) (ho : (CHUNK_SIZE : Int) ∣ o) :
    (∀ x ∈ windowsFrom o n, (CHUNK_SIZE : Int) ∣ x) ∧ (windowsFrom o n).Pairwise (fun a b => a < b) := by
  constructor
  · intro x hx
    simp only [windowsFrom, List.mem_map, List.mem_range] at hx
    obtain ⟨i, -, rfl⟩ := hx
    exact Dvd.dvd.add ho (Dvd.intro_left _ rfl)
  · simp only [windowsFrom]
    rw [List.pairwise_map]
    refine List.Pairwise.imp ?_ (List.pairwise_lt_range n)
    intro a b hab
    simp only [CHUNK_SIZE_eq]
    push_cast
    omega

/-- C17: for an accepted request whose end is a number, a consumer that stays and enough
fuel, whatever the fetches answer: the run is the head, then batch after batch (the fetches of
a batch, then its writes), then the end.  The fetches are the windows at
`alignedStart + i * CHUNK_SIZE` for `i` from 0 to `floor(end / CHUNK_SIZE) -
floor(start / CHUNK_SIZE)`, with `alignedStart = floor(start / CHUNK_SIZE) * CHUNK_SIZE`; every
offset is a multiple of `CHUNK_SIZE`, the offsets increase strictly (each window once); no
batch is empty, none has more than `MAX_PARALLEL_CHUNKS` fetches, and every batch but the last
has exactly that many. -/
theorem C17_windows_in_batches (env : StreamEnv) (m : TelegramClientManager) (req : Request)
    (doc : Document) (p : StreamPlan) (fuel : Nat) (e : Int)
    (hdoc : (lookupDocument env m req).1 = .ok doc)
    (hp : planStream doc req.range = .ok p) (he : p.requestEnd = Num.fin e)
    (hconn : ∀ k, env.destroyed k = false) (hfuel : enoughFuel doc.size ≤ fuel) :
    ∃ (evs : List Event) (batches : List (List Int)),
      (handleStreamFile env m req fuel).1 = some evs ∧
      evs = Event.writeHead p.status p.headers ::
        (batches.map (batchEvents env p.range p.start p.requestEnd)).flatten ++ [Event.finish] ∧
      batches.flatten = fetchesOf evs ∧
      fetchesOf evs =
        (List.range (Int.fdiv e CHUNK_SIZE - Int.fdiv p.start CHUNK_SIZE + 1).toNat).map
          (fun (i : Nat) => Int.fdiv p.start CHUNK_SIZE * CHUNK_SIZE + (i : Int) * (CHUNK_SIZE : Int)) ∧
      (∀ o ∈ fetchesOf evs, (CHUNK_SIZE : Int) ∣ o) ∧
      (fetchesOf evs).Pairwise (fun a b => a < b) ∧
      (∀ b ∈ batches, 0 < b.length ∧ b.length ≤ MAX_PARALLEL_CHUNKS) ∧
      (∀ b ∈ batches.dropLast, b.length = MAX_PARALLEL_CHUNKS) := by
  have hrem := planStream_offset_remaining doc _ p hp
  rw [he] at hrem
  simp only [remaining] at hrem
  obtain ⟨bs, hbs, hsz, hfull, -⟩ := launchedBatches_sizes env.destroyed hconn e fuel 0 p.offset
    (by omega)
  have hloop := streamLoop_batches env p.range p.start p.requestEnd fuel 0 p.offset
  have hl := launched_batches env.destroyed p.requestEnd fuel 0 p.offset
  rw [he] at hl
  rw [he, hbs] at hloop
  rw [hbs, launched_fin env.destroyed hconn e fuel 0 p.offset (by omega)] at hl
  simp only [Option.map_some', Option.some.injEq] at hloop hl
  have hf := streamLoop_fetches env p.range p.start (Num.fin e) fuel 0 p.offset
  rw [hloop, launched_fin env.destroyed hconn e fuel 0 p.offset (by omega)] at hf
  simp only [Option.map_some', Option.some.injEq] at hf
  have t := fetchesOf_stream (Event.writeHead p.status p.headers)
    ((bs.map (batchEvents env p.range p.start (Num.fin e))).flatten) p.status p.headers rfl
  have hoff := planStream_offset doc _ p hp
  have hcount := windowCount_aligned e p.start
  have hdiv : (CHUNK_SIZE : Int) ∣ p.offset := by rw [hoff]; exact Dvd.intro_left _ rfl
  have hfacts := windowsFrom_facts p.offset (windowCount e p.offset) hdiv
  have hfetch : fetchesOf (Event.writeHead p.status p.headers ::
      (bs.map (batchEvents env p.range p.start (Num.fin e))).flatten ++ [Event.finish]) =
      windowsFrom p.offset (windowCount e p.offset) := by rw [t.1, hf]
  refine ⟨Event.writeHead p.status p.headers ::
      (bs.map (batchEvents env p.range p.start (Num.fin e))).flatten ++ [Event.finish], bs,
    ?_, by rw [he], ?_, ?_, ?_, ?_, hsz, hfull⟩
  · rw [handleStreamFile_of_lookup env m req doc fuel hdoc]
    unfold streamDocument
    rw [hp]
    simp only [he, hloop]
  · rw [hfetch, ← hl]
  · rw [hfetch, hoff, hcount]
    rfl
  · rw [hfetch]; exact hfacts.1
  · rw [hfetch]; exact hfacts.2

/-- An instance of C17: an object of 3,000,000 bytes (twelve windows) asked whole from a
backend whose every fetch fails: twelve fetches all the same. -/
theorem C17_witness_twelve_windows :
    ∃ evs, (handleStreamFile failingEnv (TelegramClientManager.new demoConfig)
        (demoRequest none) 13).1 = some evs ∧ (fetchesOf evs).length = 12 := by
  obtain ⟨evs, batches, h1, -, -, h4, -⟩ := C17_windows_in_batches failingEnv
    (TelegramClientManager.new demoConfig) (demoRequest none)
    { size := 3000000, mimeType := none }
    { status := 200
      headers :=
        [("Content-Length", .num (Num.fin 3000000)),
         ("Content-Type", .str "application/octet-stream"),
         ("Accept-Ranges", .str "bytes")]
      range := false
      start := 0
      requestEnd := Num.fin 2999999
      offset := 0 } 13 2999999 rfl rfl rfl (fun _ => rfl) (by decide)
  exact ⟨evs, h1, by rw [h4]; decide⟩

/-! ## The loop after a disconnect -/

theorem launchBatch_length (requestEnd : Num) :
    ∀ (n : Nat) (o : Int), (launchBatch requestEnd n o).1.length ≤ n := by
  intro n
  induction n with
  | zero => intro o; simp [launchBatch]
  | succ n ih =>
    intro o
    unfold launchBatch
    split_ifs
    · have := ih (o + CHUNK_SIZE)
      simp only [List.length_cons]
      omega
    · simp

theorem loopStep_stopped (env : StreamEnv) (range : Bool) (start : Int) (requestEnd : Num)
    (s : LoopState) (h : s.running = false) : loopStep env range start requestEnd s = s := by
  simp [loopStep, h]

theorem loopRun_stopped (env : StreamEnv) (range : Bool) (start : Int) (requestEnd : Num)
    (n : Nat) (s : LoopState) (h : s.running = false) :
    loopRun env range start requestEnd n s = s := by
  induction n with
  | zero => rfl
  | succ n ih =>
    unfold loopRun at ih ⊢
    rw [Function.iterate_succ_apply, loopStep_stopped env range start requestEnd s h, ih]

theorem loopRun_succ (env : StreamEnv) (range : Bool) (start : Int) (requestEnd : Num)
    (n : Nat) (s : LoopState) :
    loopRun env range start requestEnd (n + 1) s =
      loopRun env range start requestEnd n (loopStep env range start requestEnd s) := by
  unfold loopRun
  rw [Function.iterate_succ_apply]

/-- The machine follows the loop: when `streamLoop` ends with a list of events, the machine
run for the same number of iterations has stopped, and has added to its state the fetches
and the writes of these events. -/
theorem loopRun_streamLoop (env : StreamEnv) (range : Bool) (start : Int) (requestEnd : Num) :
    ∀ (fuel : Nat) (s : LoopState) (evs : List Event), s.running = true →
      streamLoop env range start requestEnd fuel s.iteration s.cursor = some evs →
      (loopRun env range start requestEnd fuel s).running = false ∧
      (loopRun env range start requestEnd fuel s).fetched = s.fetched ++ fetchesOf evs ∧
      (loopRun env range start requestEnd fuel s).written = s.written ++ writesOf evs := by
  intro fuel
  induction fuel with
  | zero => intro s evs _ h; cases h
  | succ fuel ih =>
    intro s evs hrun h
    rw [loopRun_succ]
    unfold streamLoop at h
    by_cases h1 : Num.le (Num.fin s.cursor) requestEnd = true
    · by_cases h2 : env.destroyed s.iteration = true
      · simp only [h1, h2, if_true, Option.some.injEq] at h
        subst h
        have hstep : loopStep env range start requestEnd s =
            { s with running := false, disconnected := true } := by
          simp [loopStep, hrun, h1, h2]
        rw [hstep, loopRun_stopped _ _ _ _ _ _ rfl]
        simp [fetchesOf, writesOf]
      · simp only [h1, h2, if_true, Bool.false_eq_true, if_false] at h
        have hstep : loopStep env range start requestEnd s =
            { s with
              cursor := (launchBatch requestEnd MAX_PARALLEL_CHUNKS s.cursor).2
              iteration := s.iteration + 1
              fetched := s.fetched ++ (launchBatch requestEnd MAX_PARALLEL_CHUNKS s.cursor).1
              written := s.written ++
                (launchBatch requestEnd MAX_PARALLEL_CHUNKS s.cursor).1.filterMap
                  (contribution env range start requestEnd) } := by
          simp [loopStep, hrun, h1, h2]
        cases hrest : streamLoop env range start requestEnd fuel (s.iteration + 1)
            (launchBatch requestEnd MAX_PARALLEL_CHUNKS s.cursor).2 with
        | none => rw [hrest] at h; cases h
        | some rest =>
          rw [hrest] at h
          simp only [Option.some.injEq] at h
          subst h
          rw [hstep]
          obtain ⟨r1, r2, r3⟩ := ih
            { s with
              cursor := (launchBatch requestEnd MAX_PARALLEL_CHUNKS s.cursor).2
              iteration := s.iteration + 1
              fetched := s.fetched ++ (launchBatch requestEnd MAX_PARALLEL_CHUNKS s.cursor).1
              written := s.written ++
                (launchBatch requestEnd MAX_PARALLEL_CHUNKS s.cursor).1.filterMap
                  (contribution env range start requestEnd) } rest hrun hrest
          refine ⟨r1, ?_, ?_⟩
          · rw [r2]
            dsimp only
            simp only [fetchesOf_append, fetchesOf_map_fetch, fetchesOf_writeBatch,
              List.append_nil, List.nil_append, List.append_assoc]
          · rw [r3]
            dsimp only
            simp only [writesOf_append, writesOf_map_fetch, writesOf_writeBatch,
              List.append_nil, List.nil_append, List.append_assoc]
    · simp only [h1, Bool.false_eq_true, if_false, Option.some.injEq] at h
      subst h
      have hstep : loopStep env range start requestEnd s = { s with running := false } := by
        simp [loopStep, hrun, h1]
      rw [hstep, loopRun_stopped _ _ _ _ _ _ rfl]
      simp [fetchesOf, writesOf]

theorem streamLoop_after_disconnect (env : StreamEnv) (range : Bool) (start : Int)
    (requestEnd : Num) :
    ∀ (fuel j k : Nat) (offset : Int) (evs : List Event),
      streamLoop env range start requestEnd fuel k offset = some evs →
      env.destroyed (k + j) = true →
      (fetchesOf evs).length ≤ MAX_PARALLEL_CHUNKS * j ∧
      (writesOf evs).length ≤ MAX_PARALLEL_CHUNKS * j := by
  intro fuel
  induction fuel with
  | zero => intro j k offset evs h; cases h
  | succ fuel ih =>
    intro j k offset evs h hd
    unfold streamLoop at h
    by_cases h1 : Num.le (Num.fin offset) requestEnd = true
    · by_cases h2 : env.destroyed k = true
      · simp only [h1, h2, if_true, Option.some.injEq] at h
        subst h
        simp [fetchesOf, writesOf]
      · simp only [h1, h2, if_true, Bool.false_eq_true, if_false] at h
        cases j with
        | zero => exact absurd hd h2
        | succ j =>
          cases hrest : streamLoop env range start requestEnd fuel (k + 1)
              (launchBatch requestEnd MAX_PARALLEL_CHUNKS offset).2 with
          | none => rw [hrest] at h; cases h
          | some rest =>
            rw [hrest] at h
            simp only [Option.some.injEq] at h
            subst h
            have hd' : env.destroyed (k + 1 + j) = true := by
              have e : k + 1 + j = k + (j + 1) := by omega
              rw [e]; exact hd
            obtain ⟨r1, r2⟩ := ih j (k + 1) _ rest hrest hd'
            have hlen := launchBatch_length requestEnd MAX_PARALLEL_CHUNKS offset
            have hw : ((launchBatch requestEnd MAX_PARALLEL_CHUNKS offset).1.filterMap
                (contribution env range start requestEnd)).length ≤
                (launchBatch requestEnd MAX_PARALLEL_CHUNKS offset).1.length :=
              List.length_filterMap_le _ _
            simp only [fetchesOf_append, fetchesOf_map_fetch, fetchesOf_writeBatch,
              writesOf_append, writesOf_map_fetch, writesOf_writeBatch, List.append_nil,
              List.nil_append, List.length_append]
            have hm : MAX_PARALLEL_CHUNKS * (j + 1) = MAX_PARALLEL_CHUNKS * j +
                MAX_PARALLEL_CHUNKS := Nat.mul_succ _ _
            rw [hm]
            constructor <;> omega
    · simp only [h1, Bool.false_eq_true, if_false, Option.some.injEq] at h
      subst h
      simp [fetchesOf, writesOf]

theorem loopStep_appends (env : StreamEnv) (range : Bool) (start : Int) (requestEnd : Num)
    (t : LoopState) :
    ∃ b : List Int, b.length ≤ MAX_PARALLEL_CHUNKS ∧
      (loopStep env range start requestEnd t).fetched = t.fetched ++ b ∧
      ∃ w : List Buffer, w.length ≤ b.length ∧
        (loopStep env range start requestEnd t).written = t.written ++ w := by
  by_cases hrun : t.running = true
  · by_cases h1 : Num.le (Num.fin t.cursor) requestEnd = true
    · by_cases h2 : env.destroyed t.iteration = true
      · exact ⟨[], by simp, by simp [loopStep, hrun, h1, h2], [], by simp,
          by simp [loopStep, hrun, h1, h2]⟩
      · exact ⟨(launchBatch requestEnd MAX_PARALLEL_CHUNKS t.cursor).1,
          launchBatch_length requestEnd MAX_PARALLEL_CHUNKS t.cursor,
          by simp [loopStep, hrun, h1, h2],
          (launchBatch requestEnd MAX_PARALLEL_CHUNKS t.cursor).1.filterMap
            (contribution env range start requestEnd),
          List.length_filterMap_le _ _, by simp [loopStep, hrun, h1, h2]⟩
    · exact ⟨[], by simp, by simp [loopStep, hrun, h1], [], by simp,
        by simp [loopStep, hrun, h1]⟩
  · exact ⟨[], by simp, by simp [loopStep, hrun], [], by simp, by simp [loopStep, hrun]⟩

/-- C18. The loop of the stream handler as a machine over the cursor, the index of the
iteration, the flags `running` and `disconnected`, the fetches launched and the buffers
written.  When the loop comes to a batch boundary (the top of the `while` body, cursor not
beyond the end) and finds the consumer gone, the next step ends it with `disconnected` set,
and every later state is this same state: no fetch is launched and nothing is written any
more.  Every step launches at most `MAX_PARALLEL_CHUNKS` fetches and writes at most one buffer
for each of them.  The machine is the loop of the handler: whenever `streamLoop` ends with
a list of events the machine run as long has stopped with the fetches and the writes of
these events, and `streamLoop` does end when the fuel exceeds the number of windows left.
So in a run entered `j` iterations before the boundary at which the consumer is found gone,
at most `MAX_PARALLEL_CHUNKS * j` fetches are launched and as many buffers written: with
`j = 1`, the batch in flight and nothing of a later batch.  (The writes of the batch in flight
are still handed to `res.write`; the wait for `drain` is not part of the model.) -/
theorem C18_nothing_after_disconnect (env : StreamEnv) (range : Bool) (start : Int)
    (requestEnd : Num) (s : LoopState) (hrun : s.running = true)
    (hle : Num.le (Num.fin s.cursor) requestEnd = true)
    (hd : env.destroyed s.iteration = true) :
    (∀ n, loopRun env range start requestEnd (n + 1) s =
        { s with running := false, disconnected := true }) ∧
    (∀ t : LoopState, ∃ b : List Int, b.length ≤ MAX_PARALLEL_CHUNKS ∧
        (loopStep env range start requestEnd t).fetched = t.fetched ++ b ∧
        ∃ w : List Buffer, w.length ≤ b.length ∧
          (loopStep env range start requestEnd t).written = t.written ++ w) ∧
    (∀ fuel k offset evs, streamLoop env range start requestEnd fuel k offset = some evs →
        (loopRun env range start requestEnd fuel (loopEnter k offset)).running = false ∧
        (loopRun env range start requestEnd fuel (loopEnter k offset)).fetched = fetchesOf evs ∧
        (loopRun env range start requestEnd fuel (loopEnter k offset)).written = writesOf evs) ∧
    (∀ fuel k offset, remaining requestEnd offset < fuel →
        ∃ evs, streamLoop env range start requestEnd fuel k offset = some evs) ∧
    (∀ fuel k j offset evs, k + j = s.iteration →
        streamLoop env range start requestEnd fuel k offset = some evs →
        (fetchesOf evs).length ≤ MAX_PARALLEL_CHUNKS * j ∧
        (writesOf evs).length ≤ MAX_PARALLEL_CHUNKS * j) := by
  refine ⟨?_, loopStep_appends env range start requestEnd, ?_, ?_, ?_⟩
  · intro n
    have hstep : loopStep env range start requestEnd s =
        { s with running := false, disconnected := true } := by
      simp [loopStep, hrun, hle, hd]
    rw [loopRun_succ, hstep, loopRun_stopped _ _ _ _ _ _ rfl]
  · intro fuel k offset evs h
    have := loopRun_streamLoop env range start requestEnd fuel (loopEnter k offset) evs rfl h
    simpa [loopEnter] using this
  · intro fuel k offset h
    exact streamLoop_isSome env range start requestEnd fuel k offset h
  · intro fuel k j offset evs hk h
    exact streamLoop_after_disconnect env range start requestEnd fuel j k offset evs h
      (by rw [hk]; exact hd)

/-- An instance of C18: on `goneAtSecond`, after the first batch of ten fetches the machine
is at a boundary where the consumer is gone; four more steps leave it stopped with the
same ten fetches. -/
theorem C18_witness_gone_at_second :
    afterFirstBatch.fetched.length = 10 ∧
    loopRun goneAtSecond false 0 (Num.fin 2999999) 4 afterFirstBatch =
      { afterFirstBatch with running := false, disconnected := true } :=
  ⟨by decide, (C18_nothing_after_disconnect goneAtSecond false 0 (Num.fin 2999999)
    afterFirstBatch (by decide) (by decide) (by decide)).1 3⟩

/-! ## Concurrent calls of `initClient` -/

theorem initClientAlone_eq (a : InitAnswers) (m : TelegramClientManager) (forceNew : Bool) :
    TelegramClientManager.initClientAlone a m forceNew =
      TelegramClientManager.initClient a m forceNew := by
  unfold TelegramClientManager.initClientAlone TelegramClientManager.initClientEnter
    TelegramClientManager.initClient
  by_cases h0 : (m.clientConnected && !forceNew) = true
  · simp only [h0, if_true]
  · by_cases h1 : (!(parseIntOpt m.config.apiId).truthy || !truthyStr m.config.apiHash) = true
    · simp only [h0, h1, if_true, Bool.false_eq_true, if_false]
    · simp only [h0, h1, Bool.false_eq_true, if_false]
      generalize (match m.client with
        | some c => if forceNew = true then
            ({ connected := false
               session := if truthyStr m.config.stringSession = true
                 then m.config.stringSession.getD "" else "" } : Client) else c
        | none => { connected := false
                    session := if truthyStr m.config.stringSession = true
                      then m.config.stringSession.getD "" else "" }) = client
      by_cases h2 : client.connected = true
      · simp only [h2, Bool.not_true, Bool.false_eq_true, if_false]
        cases hb : a.isUserAuthorized <;>
          simp [TelegramClientManager.initClientResumeAuthorized, hb]
      · simp only [h2, Bool.not_false, Bool.not_eq_true] at h2 ⊢
        simp only [h2, Bool.not_false, if_true]
        cases hc : a.connect with
        | error e => simp [TelegramClientManager.initClientResumeConnect]
        | ok newSession =>
          by_cases h3 : some newSession = m.config.stringSession
          · cases hb : a.isUserAuthorized <;>
              simp [TelegramClientManager.initClientResumeConnect,
                TelegramClientManager.initClientResumeAuthorized, h3, hb]
          · cases hb : a.isUserAuthorized <;>
              simp [TelegramClientManager.initClientResumeConnect,
                TelegramClientManager.initClientResumeAuthorized, h3, hb]

theorem initClientEnter_unconnected (m : TelegramClientManager)
    (hconn : m.clientConnected = false)
    (hid : (parseIntOpt m.config.apiId).truthy = true)
    (hhash : truthyStr m.config.apiHash = true) :
    (TelegramClientManager.initClientEnter m false).1 =
      .pending (.connect m.config.stringSession) ∧
    (TelegramClientManager.initClientEnter m false).2.calls = .connect :: m.calls ∧
    (TelegramClientManager.initClientEnter m false).2.clientConnected = false ∧
    (TelegramClientManager.initClientEnter m false).2.config = m.config ∧
    (TelegramClientManager.initClientEnter m false).2.authState = m.authState ∧
    (∀ c, m.client = some c → (TelegramClientManager.initClientEnter m false).2.client = some c) := by
  unfold TelegramClientManager.initClientEnter
  cases hc : m.client with
  | none =>
    simp [TelegramClientManager.clientConnected, hc, hid, hhash]
  | some c =>
    have hcc : c.connected = false := by
      simpa [TelegramClientManager.clientConnected, hc] using hconn
    simp [TelegramClientManager.clientConnected, hc, hid, hhash, hcc]

theorem enterAll_unconnected :
    ∀ (n : Nat) (m : TelegramClientManager), m.clientConnected = false →
      (parseIntOpt m.config.apiId).truthy = true → truthyStr m.config.apiHash = true →
      (TelegramClientManager.enterAll false n m).1 =
        List.replicate n (.pending (.connect m.config.stringSession)) ∧
      (TelegramClientManager.enterAll false n m).2.calls =
        List.replicate n .connect ++ m.calls ∧
      (TelegramClientManager.enterAll false n m).2.clientConnected = false ∧
      (TelegramClientManager.enterAll false n m).2.authState = m.authState := by
  intro n
  induction n with
  | zero => intro m hconn _ _; exact ⟨rfl, rfl, hconn, rfl⟩
  | succ n ih =>
    intro m hconn hid hhash
    obtain ⟨e1, e2, e3, e4, e5, -⟩ := initClientEnter_unconnected m hconn hid hhash
    obtain ⟨r1, r2, r3, r4⟩ := ih (TelegramClientManager.initClientEnter m false).2 e3
      (by rw [e4]; exact hid) (by rw [e4]; exact hhash)
    unfold TelegramClientManager.enterAll
    refine ⟨?_, ?_, r3, ?_⟩
    · show (TelegramClientManager.initClientEnter m false).1 ::
        (TelegramClientManager.enterAll false n
          (TelegramClientManager.initClientEnter m false).2).1 = _
      rw [r1, e1, e4, List.replicate_succ]
    · show (TelegramClientManager.enterAll false n
          (TelegramClientManager.initClientEnter m false).2).2.calls = _
      rw [r2, e2, List.replicate_succ', List.append_assoc]
      rfl
    · show (TelegramClientManager.enterAll false n
          (TelegramClientManager.initClientEnter m false).2).2.authState = _
      rw [r4, e5]

/-- C13, the claim as written fails.  Two calls `initClient()` on a new manager with
credentials, the second made while the first is suspended at `await this.client.connect()`:
no connection is established, and `client.connect()` is called twice, once by each call.
When both are resumed with the answer of their own `connect`, each goes on to
`isUserAuthorized`; two connect calls have been made, not one. -/
theorem C13_counterexample_two_callers :
    (TelegramClientManager.new demoConfig).clientConnected = false ∧
    (TelegramClientManager.enterAll false 2 (TelegramClientManager.new demoConfig)).2.calls =
      [.connect, .connect] ∧
    (TelegramClientManager.enterAll false 2
      (TelegramClientManager.new demoConfig)).2.clientConnected = false ∧
    (TelegramClientManager.resumeAll (.ok "1AQAA")
      (TelegramClientManager.enterAll false 2 (TelegramClientManager.new demoConfig)).1
      (TelegramClientManager.enterAll false 2 (TelegramClientManager.new demoConfig)).2).2.calls =
      [.isUserAuthorized, .isUserAuthorized, .connect, .connect] ∧
    ((TelegramClientManager.enterAll false 2
      (TelegramClientManager.new demoConfig)).2.calls.count .connect ≠ 1) := by
  refine ⟨by decide, by decide, by decide, by decide, by decide⟩

/-- C13, amended.  `initClient` has no guard that lets a call wait for the connect of
another: a call tests `this.client?.connected`, which stays false until a `connect`
has succeeded.  So when `n` calls `initClient()` are made while no connection is established
(each runs to its first `await` before any `connect` is answered) and the credentials are
configured, every one of them is suspended at its own `client.connect()`: `n` connect calls
are made, and the client is still not connected.  Only a call that starts when the client
is connected returns at once without a call to the backend.  The parts of `initClient`
used here, run one after the other, are the method `initClient`. -/
theorem C13_each_caller_connects (m : TelegramClientManager) (n : Nat)
    (hconn : m.clientConnected = false)
    (hid : (parseIntOpt m.config.apiId).truthy = true)
    (hhash : truthyStr m.config.apiHash = true) :
    (TelegramClientManager.enterAll false n m).1 =
      List.replicate n (.pending (.connect m.config.stringSession)) ∧
    (TelegramClientManager.enterAll false n m).2.calls = List.replicate n .connect ++ m.calls ∧
    (TelegramClientManager.enterAll false n m).2.calls.count .connect =
      n + m.calls.count .connect ∧
    (TelegramClientManager.enterAll false n m).2.clientConnected = false ∧
    (∀ m0 : TelegramClientManager, m0.clientConnected = true →
      (TelegramClientManager.initClientEnter m0 false).2 = m0 ∧
      ∃ r, (TelegramClientManager.initClientEnter m0 false).1 = .done r ∧ r = .ok ()) ∧
    (∀ (a : InitAnswers) (m0 : TelegramClientManager) (forceNew : Bool),
      TelegramClientManager.initClientAlone a m0 forceNew =
        TelegramClientManager.initClient a m0 forceNew) := by
  obtain ⟨r1, r2, r3, -⟩ := enterAll_unconnected n m hconn hid hhash
  refine ⟨r1, r2, ?_, r3, ?_, initClientAlone_eq⟩
  · rw [r2, List.count_append, List.count_replicate_self]
  · intro m0 h0
    have e : TelegramClientManager.initClientEnter m0 false = (.done (.ok ()), m0) := by
      simp [TelegramClientManager.initClientEnter, h0]
    rw [e]
    exact ⟨rfl, _, rfl, rfl⟩

/-- An instance of C13: three calls on a new manager with credentials make three connect
calls. -/
theorem C13_witness_three_callers :
    (TelegramClientManager.enterAll false 3 (TelegramClientManager.new demoConfig)).2.calls.count
      .connect = 3 :=
  (C13_each_caller_connects (TelegramClientManager.new demoConfig) 3 (by decide) (by decide)
    (by decide)).2.2.1

end TDStream
